import Mathlib

/-!
Verification of the incremental normalization / merge pipeline and the
time-bucket aggregator of this repository (`cannabis_mood_tracker.py` and
`streamlit_app.py`), as a shallow embedding.

Modelling conventions:
* A `datetime` parsed from the fixed `YYYY-MM-DD HH:MM:SS` format is modelled
  as an integer number of seconds since the epoch (`Timestamp := Int`); the
  merge only needs equality on timestamps and the sorts/aggregation only need
  the linear order and flooring arithmetic.
* A Firestore raw value (and a `value` cell of the dataframe) is either a
  string or a number; Python floats are modelled as rationals (`ℚ`).
* The external text-completion service is a collaborator: an agent call is
  modelled by the outcome of the `try:`-block that parses the response text
  (`float(response)` for the cannabis agent, `int(float(response))` for the
  mood agent); `none` models a `ValueError`.  Python's builtin `float` applied
  to an arbitrary string (also used by `pd.to_numeric(..., errors='coerce')`)
  is likewise an external environment function `String → Option ℚ`.
* A pandas `DataFrame` with columns `dt, event_type, value` is a `List Row`;
  `sort_values('dt')` is modelled as a stable sort on `dt`.
-/

/-- Seconds since the Unix epoch (the epoch day, 1970-01-01, is a Thursday). -/
abbrev Timestamp := Int

/-- A raw value as stored in Firestore / a dataframe `value` cell:
free-form text or an (already numeric) value. -/
inductive Val where
  | str (s : String)
  | num (q : ℚ)
deriving DecidableEq, Repr

/-- One row of the per-user event log (columns `dt`, `event_type`, `value`). -/
structure Row where
  dt : Timestamp
  event_type : String
  value : Val
deriving DecidableEq, Repr

/-- The external collaborators of the pipeline.
`cannabisResp v` is the outcome of `float(response)` where `response` is the
completion returned for the cannabis prompt built from `v`; `moodResp v` is the
outcome of `int(float(response))` for the mood prompt; `pyFloat s` is the
outcome of Python's `float(s)` on a string (`none` models `ValueError`). -/
structure Env where
  cannabisResp : Val → Option ℚ
  moodResp : Val → Option Int
  pyFloat : String → Option ℚ

/-- `CannabisMetricAgent.process_metric`: `result = float(response)`,
`except ValueError: result = 0.0`.  The argument is the parse outcome of the
response text. -/
def CannabisMetricAgent.process_metric (response : Option ℚ) : ℚ :=
  match response with
  | some q => q
  | none => 0

/-- `MoodMetricAgent.process_metric`: `result = int(float(response))` then
`result = max(1, min(5, result))`, `except ValueError: result = 3`.  The
argument is the parse outcome of `int(float(response))`. -/
def MoodMetricAgent.process_metric (response : Option Int) : ℚ :=
  match response with
  | some r => ((max 1 (min 5 r) : ℤ) : ℚ)
  | none => 3

/-- Python `float(v)` on a raw value: numbers pass through, strings go
through the environment's `float`. -/
def pyFloatVal (env : Env) : Val → Option ℚ
  | Val.num q => some q
  | Val.str s => env.pyFloat s

/-- `calculate(metric_name, metric_value)`: route cannabis and mood values
through their agents; for every other (financial) metric, `float(metric_value)`
with `except ValueError: return 0.0`. -/
def calculate (env : Env) (metric_name : String) (metric_value : Val) : ℚ :=
  if metric_name = "cannabis_use" then
    CannabisMetricAgent.process_metric (env.cannabisResp metric_value)
  else if metric_name = "mood" then
    MoodMetricAgent.process_metric (env.moodResp metric_value)
  else
    match pyFloatVal env metric_value with
    | some q => q
    | none => 0

/-- The nested per-kind maps fetched from the user document's `state` field,
already flattened to (parsed timestamp, raw value) association lists.  The
Python objects are dicts keyed by timestamp strings, iterated in insertion
order. -/
structure Fetched where
  cannabis_use : List (Timestamp × Val)
  mood : List (Timestamp × Val)
  monthly_cashflow_income : List (Timestamp × Val)
  monthly_cashflow_expenses : List (Timestamp × Val)
  monthly_cashflow_savings : List (Timestamp × Val)
  monthly_cashflow_savings_rate : List (Timestamp × Val)
deriving DecidableEq, Repr

/-- `((existing_df['dt'] == dt) & (existing_df['event_type'] == tag)).any()`. -/
def hasRow (df : List Row) (dt : Timestamp) (tag : String) : Bool :=
  df.any (fun r => r.dt == dt && r.event_type == tag)

/-- The cannabis loop of `get_user_data_as_dataframe`: for each fetched entry
that has no exact `(dt, raw-tag)` match in the existing log, append the raw
row and the interpreted grams row. -/
def cannabisRows (env : Env) (existing : List Row)
    (entries : List (Timestamp × Val)) : List Row :=
  entries.flatMap (fun p =>
    if hasRow existing p.1 "cannabis_use_since_last_update_raw" then []
    else
      [⟨p.1, "cannabis_use_since_last_update_raw", p.2⟩,
       ⟨p.1, "cannabis_use_since_last_update_grams",
        Val.num (calculate env "cannabis_use" p.2)⟩])

/-- The mood loop of `get_user_data_as_dataframe`. -/
def moodRows (env : Env) (existing : List Row)
    (entries : List (Timestamp × Val)) : List Row :=
  entries.flatMap (fun p =>
    if hasRow existing p.1 "mood_raw" then []
    else
      [⟨p.1, "mood_raw", p.2⟩,
       ⟨p.1, "mood_score", Val.num (calculate env "mood" p.2)⟩])

/-- The `financial_metrics` list of `(metric_name, metric_data)` pairs. -/
def financial_metrics (f : Fetched) : List (String × List (Timestamp × Val)) :=
  [("monthly_cashflow_income", f.monthly_cashflow_income),
   ("monthly_cashflow_expenses", f.monthly_cashflow_expenses),
   ("monthly_cashflow_savings", f.monthly_cashflow_savings),
   ("monthly_cashflow_savings_rate", f.monthly_cashflow_savings_rate)]

/-- The financial loop of `get_user_data_as_dataframe`: one row per new entry,
tagged with the metric name itself. -/
def financialRows (env : Env) (existing : List Row) (f : Fetched) : List Row :=
  (financial_metrics f).flatMap (fun m =>
    m.2.flatMap (fun p =>
      if hasRow existing p.1 m.1 then []
      else [⟨p.1, m.1, Val.num (calculate env m.1 p.2)⟩]))

/-- `df_data`: all rows appended by the three loops, in program order. -/
def df_data (env : Env) (existing : List Row) (f : Fetched) : List Row :=
  cannabisRows env existing f.cannabis_use
    ++ moodRows env existing f.mood
    ++ financialRows env existing f

/-- The sort key relation of `sort_values('dt')`. -/
def dtLE (a b : Row) : Prop := a.dt ≤ b.dt

instance : DecidableRel dtLE := fun a b => inferInstanceAs (Decidable (a.dt ≤ b.dt))

instance : IsTotal Row dtLE := ⟨fun a b => le_total a.dt b.dt⟩

instance : IsTrans Row dtLE := ⟨fun _ _ _ h h' => le_trans h h'⟩

/-- `df.sort_values('dt')`.  pandas' default sort kind (`quicksort`) is
documented as not stable, so the program guarantees only the multiset and the
sortedness of the result, never the relative order of rows with equal `dt`;
no theorem below relies on more.  The executable model must still fix one
concrete tie order so that counterexamples can be evaluated, and uses an
insertion sort for that. -/
def sortByDt (l : List Row) : List Row := l.insertionSort dtLE

/-- `get_user_data_as_dataframe`, with the Firestore read and CSV load
abstracted into the `existing_df` and `f` arguments: build `df_data`; if it is
empty return the existing log unchanged, else sort the new rows by `dt`,
concatenate after the existing log and sort the combination by `dt`. -/
def get_user_data_as_dataframe (env : Env) (existing_df : List Row)
    (f : Fetched) : List Row :=
  let data := df_data env existing_df f
  if data.isEmpty then existing_df
  else sortByDt (existing_df ++ sortByDt data)

/-- Number of rows of `df` with the exact `(timestamp, tag)` pair. -/
def countPair (df : List Row) (t : Timestamp) (g : String) : Nat :=
  (df.filter (fun r => r.dt == t && r.event_type == g)).length

/-- Instrumentation of the merge's control flow: the `(metric_name,
metric_value)` arguments of the `calculate` calls issued by
`get_user_data_as_dataframe`, in program order.  A call happens exactly in the
`else` branch of each membership test. -/
def interpCalls (existing : List Row) (f : Fetched) : List (String × Val) :=
  f.cannabis_use.flatMap (fun p =>
    if hasRow existing p.1 "cannabis_use_since_last_update_raw" then []
    else [("cannabis_use", p.2)])
    ++ f.mood.flatMap (fun p =>
      if hasRow existing p.1 "mood_raw" then [] else [("mood", p.2)])
    ++ (financial_metrics f).flatMap (fun m =>
      m.2.flatMap (fun p =>
        if hasRow existing p.1 m.1 then [] else [(m.1, p.2)]))

/-- `get_quantitative_metrics`: keep only the derived / financial rows. -/
def get_quantitative_metrics (df : List Row) : List Row :=
  df.filter (fun r =>
    ["cannabis_use_since_last_update_grams",
     "mood_score",
     "monthly_cashflow_income",
     "monthly_cashflow_expenses",
     "monthly_cashflow_savings",
     "monthly_cashflow_savings_rate"].contains r.event_type)

/-! ### Basic facts about the merge -/

theorem hasRow_iff (df : List Row) (dt : Timestamp) (tag : String) :
    hasRow df dt tag = true ↔ ∃ r ∈ df, r.dt = dt ∧ r.event_type = tag := by
  simp [hasRow, List.any_eq_true]

theorem mem_merge_of_mem_existing (env : Env) (L : List Row) (E : Fetched)
    {r : Row} (h : r ∈ L) : r ∈ get_user_data_as_dataframe env L E := by
  unfold get_user_data_as_dataframe
  by_cases hd : (df_data env L E).isEmpty
  · simpa [hd]
  · rw [if_neg hd]
    simp only [sortByDt, List.mem_insertionSort, List.mem_append]
    exact Or.inl h

theorem mem_merge_of_mem_data (env : Env) (L : List Row) (E : Fetched)
    {r : Row} (h : r ∈ df_data env L E) : r ∈ get_user_data_as_dataframe env L E := by
  unfold get_user_data_as_dataframe
  have hd : ¬((df_data env L E).isEmpty = true) := by
    cases hdd : df_data env L E with
    | nil => rw [hdd] at h; cases h
    | cons a l => simp [hdd]
  rw [if_neg hd]
  simp only [sortByDt, List.mem_insertionSort, List.mem_append,
    List.mem_insertionSort]
  exact Or.inr h

theorem hasRow_merge_of_hasRow (env : Env) (L : List Row) (E : Fetched)
    (dt : Timestamp) (tag : String) (h : hasRow L dt tag = true) :
    hasRow (get_user_data_as_dataframe env L E) dt tag = true := by
  rcases (hasRow_iff L dt tag).1 h with ⟨r, hr, hdt, htag⟩
  exact (hasRow_iff _ dt tag).2
    ⟨r, mem_merge_of_mem_existing env L E hr, hdt, htag⟩

theorem hasRow_merge_of_mem_data (env : Env) (L : List Row) (E : Fetched)
    (dt : Timestamp) (tag : String) (v : Val)
    (h : Row.mk dt tag v ∈ df_data env L E) :
    hasRow (get_user_data_as_dataframe env L E) dt tag = true :=
  (hasRow_iff _ dt tag).2 ⟨Row.mk dt tag v, mem_merge_of_mem_data env L E h, rfl, rfl⟩

theorem cannabis_raw_mem_data (env : Env) (L : List Row) (E : Fetched)
    {p : Timestamp × Val} (hp : p ∈ E.cannabis_use)
    (h : hasRow L p.1 "cannabis_use_since_last_update_raw" = false) :
    Row.mk p.1 "cannabis_use_since_last_update_raw" p.2 ∈ df_data env L E := by
  unfold df_data
  refine List.mem_append.2 (Or.inl (List.mem_append.2 (Or.inl ?_)))
  unfold cannabisRows
  exact List.mem_flatMap.2 ⟨p, hp, by simp [h]⟩

theorem mood_raw_mem_data (env : Env) (L : List Row) (E : Fetched)
    {p : Timestamp × Val} (hp : p ∈ E.mood)
    (h : hasRow L p.1 "mood_raw" = false) :
    Row.mk p.1 "mood_raw" p.2 ∈ df_data env L E := by
  unfold df_data
  refine List.mem_append.2 (Or.inl (List.mem_append.2 (Or.inr ?_)))
  unfold moodRows
  exact List.mem_flatMap.2 ⟨p, hp, by simp [h]⟩

theorem financial_mem_data (env : Env) (L : List Row) (E : Fetched)
    {m : String × List (Timestamp × Val)} (hm : m ∈ financial_metrics E)
    {p : Timestamp × Val} (hp : p ∈ m.2)
    (h : hasRow L p.1 m.1 = false) :
    Row.mk p.1 m.1 (Val.num (calculate env m.1 p.2)) ∈ df_data env L E := by
  unfold df_data
  refine List.mem_append.2 (Or.inr ?_)
  unfold financialRows
  exact List.mem_flatMap.2 ⟨m, hm, List.mem_flatMap.2 ⟨p, hp, by simp [h]⟩⟩

/-- After a merge, every fetched entry's membership-test row is present, so a
second pass over the same fetched set builds an empty `df_data`. -/
theorem df_data_after_merge (env : Env) (L : List Row) (E : Fetched) :
    df_data env (get_user_data_as_dataframe env L E) E = [] := by
  have key : ∀ (dt : Timestamp) (tag : String) (v : Val),
      (hasRow L dt tag = false → Row.mk dt tag v ∈ df_data env L E) →
      hasRow (get_user_data_as_dataframe env L E) dt tag = true := by
    intro dt tag v hmem
    cases h : hasRow L dt tag with
    | true => exact hasRow_merge_of_hasRow env L E dt tag h
    | false => exact hasRow_merge_of_mem_data env L E dt tag v (hmem h)
  unfold df_data cannabisRows moodRows financialRows
  rw [List.append_eq_nil, List.append_eq_nil]
  refine ⟨⟨List.flatMap_eq_nil_iff.2 ?_, List.flatMap_eq_nil_iff.2 ?_⟩,
    List.flatMap_eq_nil_iff.2 ?_⟩
  · intro p hp
    rw [key p.1 "cannabis_use_since_last_update_raw" p.2
      (cannabis_raw_mem_data env L E hp)]
    rfl
  · intro p hp
    rw [key p.1 "mood_raw" p.2 (mood_raw_mem_data env L E hp)]
    rfl
  · intro m hm
    refine List.flatMap_eq_nil_iff.2 ?_
    intro p hp
    rw [key p.1 m.1 (Val.num (calculate env m.1 p.2))
      (financial_mem_data env L E hm hp)]
    rfl

/-- C1: merging twice with the same fetched events equals merging once —
the second pass finds every `(timestamp, tag)` pair already present, builds no
new rows, and returns the already-updated log unchanged. -/
theorem C1_merge_idempotent (env : Env) (L : List Row) (E : Fetched) :
    get_user_data_as_dataframe env (get_user_data_as_dataframe env L E) E =
      get_user_data_as_dataframe env L E := by
  conv_lhs => rw [get_user_data_as_dataframe]
  rw [df_data_after_merge env L E]
  rfl

theorem mem_if_nil {α : Type} (c : Prop) [Decidable c] (l : List α) (x : α) :
    x ∈ (if c then ([] : List α) else l) ↔ ¬c ∧ x ∈ l := by
  split <;> simp [*]

/-- Membership in `df_data`, unfolded to the three loops. -/
theorem mem_df_data (env : Env) (L : List Row) (E : Fetched) (r : Row) :
    r ∈ df_data env L E ↔
      ((∃ p ∈ E.cannabis_use,
          hasRow L p.1 "cannabis_use_since_last_update_raw" = false ∧
          (r = Row.mk p.1 "cannabis_use_since_last_update_raw" p.2 ∨
           r = Row.mk p.1 "cannabis_use_since_last_update_grams"
                 (Val.num (calculate env "cannabis_use" p.2))))
        ∨ (∃ p ∈ E.mood,
            hasRow L p.1 "mood_raw" = false ∧
            (r = Row.mk p.1 "mood_raw" p.2 ∨
             r = Row.mk p.1 "mood_score" (Val.num (calculate env "mood" p.2))))
        ∨ (∃ m ∈ financial_metrics E, ∃ p ∈ m.2,
            hasRow L p.1 m.1 = false ∧
            r = Row.mk p.1 m.1 (Val.num (calculate env m.1 p.2)))) := by
  simp only [df_data, cannabisRows, moodRows, financialRows, List.mem_append,
    List.mem_flatMap, mem_if_nil, Bool.not_eq_true, List.mem_cons,
    List.not_mem_nil, or_false]
  constructor
  · rintro ((⟨p, hp, h, hr⟩ | ⟨p, hp, h, hr⟩) | ⟨m, hm, p, hp, h, hr⟩)
    · exact Or.inl ⟨p, hp, h, hr⟩
    · exact Or.inr (Or.inl ⟨p, hp, h, hr⟩)
    · exact Or.inr (Or.inr ⟨m, hm, p, hp, h, hr⟩)
  · rintro (⟨p, hp, h, hr⟩ | ⟨p, hp, h, hr⟩ | ⟨m, hm, p, hp, h, hr⟩)
    · exact Or.inl (Or.inl ⟨p, hp, h, hr⟩)
    · exact Or.inl (Or.inr ⟨p, hp, h, hr⟩)
    · exact Or.inr ⟨m, hm, p, hp, h, hr⟩

/-- C2: rows for a fetched event are appended iff no row of the existing log
matches the event's timestamp and its kind-specific raw-row tag exactly (for
financial kinds the tag is the metric name itself); the membership test is
exact equality on the `(timestamp, tag)` pair — no timestamp tolerance, no
fuzzy matching. -/
theorem C2_new_iff_no_exact_match (env : Env) (L : List Row) (E : Fetched)
    (dt : Timestamp) (v : Val) :
    ((Row.mk dt "cannabis_use_since_last_update_raw" v ∈ df_data env L E) ↔
      ((dt, v) ∈ E.cannabis_use ∧
        ¬∃ r ∈ L, r.dt = dt ∧ r.event_type = "cannabis_use_since_last_update_raw"))
    ∧ ((Row.mk dt "mood_raw" v ∈ df_data env L E) ↔
      ((dt, v) ∈ E.mood ∧ ¬∃ r ∈ L, r.dt = dt ∧ r.event_type = "mood_raw"))
    ∧ ((∃ w, Row.mk dt "monthly_cashflow_income" w ∈ df_data env L E) ↔
      ((∃ u, (dt, u) ∈ E.monthly_cashflow_income) ∧
        ¬∃ r ∈ L, r.dt = dt ∧ r.event_type = "monthly_cashflow_income"))
    ∧ ((∃ w, Row.mk dt "monthly_cashflow_expenses" w ∈ df_data env L E) ↔
      ((∃ u, (dt, u) ∈ E.monthly_cashflow_expenses) ∧
        ¬∃ r ∈ L, r.dt = dt ∧ r.event_type = "monthly_cashflow_expenses"))
    ∧ ((∃ w, Row.mk dt "monthly_cashflow_savings" w ∈ df_data env L E) ↔
      ((∃ u, (dt, u) ∈ E.monthly_cashflow_savings) ∧
        ¬∃ r ∈ L, r.dt = dt ∧ r.event_type = "monthly_cashflow_savings"))
    ∧ ((∃ w, Row.mk dt "monthly_cashflow_savings_rate" w ∈ df_data env L E) ↔
      ((∃ u, (dt, u) ∈ E.monthly_cashflow_savings_rate) ∧
        ¬∃ r ∈ L, r.dt = dt ∧ r.event_type = "monthly_cashflow_savings_rate")) := by
  have hnot : ∀ tag : String, (¬∃ r ∈ L, r.dt = dt ∧ r.event_type = tag) ↔
      hasRow L dt tag = false := by
    intro tag
    rw [← hasRow_iff]
    simp
  simp only [hnot]
  refine ⟨?_, ?_, ?_, ?_, ?_, ?_⟩ <;>
    simp [df_data, cannabisRows, moodRows, financialRows, financial_metrics,
      mem_if_nil, Bool.not_eq_true, Row.mk.injEq]
  · constructor
    · rintro ⟨a, b, hab, h, rfl, rfl⟩
      exact ⟨hab, h⟩
    · rintro ⟨hm, h⟩
      exact ⟨dt, v, hm, h, rfl, rfl⟩
  · constructor
    · rintro ⟨a, b, hab, h, rfl, rfl⟩
      exact ⟨hab, h⟩
    · rintro ⟨hm, h⟩
      exact ⟨dt, v, hm, h, rfl, rfl⟩
  · constructor
    · rintro ⟨w, a, b, hab, h, rfl, rfl⟩
      exact ⟨⟨b, hab⟩, h⟩
    · rintro ⟨⟨u, hu⟩, h⟩
      exact ⟨Val.num (calculate env "monthly_cashflow_income" u),
        dt, u, hu, h, rfl, rfl⟩
  · constructor
    · rintro ⟨w, a, b, hab, h, rfl, rfl⟩
      exact ⟨⟨b, hab⟩, h⟩
    · rintro ⟨⟨u, hu⟩, h⟩
      exact ⟨Val.num (calculate env "monthly_cashflow_expenses" u),
        dt, u, hu, h, rfl, rfl⟩
  · constructor
    · rintro ⟨w, a, b, hab, h, rfl, rfl⟩
      exact ⟨⟨b, hab⟩, h⟩
    · rintro ⟨⟨u, hu⟩, h⟩
      exact ⟨Val.num (calculate env "monthly_cashflow_savings" u),
        dt, u, hu, h, rfl, rfl⟩
  · constructor
    · rintro ⟨w, a, b, hab, h, rfl, rfl⟩
      exact ⟨⟨b, hab⟩, h⟩
    · rintro ⟨⟨u, hu⟩, h⟩
      exact ⟨Val.num (calculate env "monthly_cashflow_savings_rate" u),
        dt, u, hu, h, rfl, rfl⟩

/-- The merge depends on the fetched events only through `df_data`. -/
theorem merge_eq_of_df_data_eq (env : Env) (L : List Row) (f1 f2 : Fetched)
    (h : df_data env L f1 = df_data env L f2) :
    get_user_data_as_dataframe env L f1 = get_user_data_as_dataframe env L f2 := by
  unfold get_user_data_as_dataframe
  rw [h]

/-- C10: a fetched event whose `(timestamp, tag)` pair already has a row in the
existing log is ignored entirely by the merge: for each of the six kinds
separately, under only that kind's membership hypothesis, removing the event
from the fetched set (in any position) changes neither the merged log nor the
list of interpreter calls issued, so its fetched value is never read and the
stored rows are left as they are. -/
theorem C10_existing_event_ignored (env : Env) (L : List Row)
    (dt : Timestamp) (v : Val)
    (cA cB mA mB iA iB eA eB sA sB rA rB : List (Timestamp × Val)) :
    (hasRow L dt "cannabis_use_since_last_update_raw" = true →
      get_user_data_as_dataframe env L
          ⟨cA ++ (dt, v) :: cB, mA ++ mB, iA ++ iB, eA ++ eB, sA ++ sB, rA ++ rB⟩ =
        get_user_data_as_dataframe env L
          ⟨cA ++ cB, mA ++ mB, iA ++ iB, eA ++ eB, sA ++ sB, rA ++ rB⟩
        ∧ interpCalls L
            ⟨cA ++ (dt, v) :: cB, mA ++ mB, iA ++ iB, eA ++ eB, sA ++ sB, rA ++ rB⟩ =
          interpCalls L
            ⟨cA ++ cB, mA ++ mB, iA ++ iB, eA ++ eB, sA ++ sB, rA ++ rB⟩)
    ∧ (hasRow L dt "mood_raw" = true →
      get_user_data_as_dataframe env L
          ⟨cA ++ cB, mA ++ (dt, v) :: mB, iA ++ iB, eA ++ eB, sA ++ sB, rA ++ rB⟩ =
        get_user_data_as_dataframe env L
          ⟨cA ++ cB, mA ++ mB, iA ++ iB, eA ++ eB, sA ++ sB, rA ++ rB⟩
        ∧ interpCalls L
            ⟨cA ++ cB, mA ++ (dt, v) :: mB, iA ++ iB, eA ++ eB, sA ++ sB, rA ++ rB⟩ =
          interpCalls L
            ⟨cA ++ cB, mA ++ mB, iA ++ iB, eA ++ eB, sA ++ sB, rA ++ rB⟩)
    ∧ (hasRow L dt "monthly_cashflow_income" = true →
      get_user_data_as_dataframe env L
          ⟨cA ++ cB, mA ++ mB, iA ++ (dt, v) :: iB, eA ++ eB, sA ++ sB, rA ++ rB⟩ =
        get_user_data_as_dataframe env L
          ⟨cA ++ cB, mA ++ mB, iA ++ iB, eA ++ eB, sA ++ sB, rA ++ rB⟩
        ∧ interpCalls L
            ⟨cA ++ cB, mA ++ mB, iA ++ (dt, v) :: iB, eA ++ eB, sA ++ sB, rA ++ rB⟩ =
          interpCalls L
            ⟨cA ++ cB, mA ++ mB, iA ++ iB, eA ++ eB, sA ++ sB, rA ++ rB⟩)
    ∧ (hasRow L dt "monthly_cashflow_expenses" = true →
      get_user_data_as_dataframe env L
          ⟨cA ++ cB, mA ++ mB, iA ++ iB, eA ++ (dt, v) :: eB, sA ++ sB, rA ++ rB⟩ =
        get_user_data_as_dataframe env L
          ⟨cA ++ cB, mA ++ mB, iA ++ iB, eA ++ eB, sA ++ sB, rA ++ rB⟩
        ∧ interpCalls L
            ⟨cA ++ cB, mA ++ mB, iA ++ iB, eA ++ (dt, v) :: eB, sA ++ sB, rA ++ rB⟩ =
          interpCalls L
            ⟨cA ++ cB, mA ++ mB, iA ++ iB, eA ++ eB, sA ++ sB, rA ++ rB⟩)
    ∧ (hasRow L dt "monthly_cashflow_savings" = true →
      get_user_data_as_dataframe env L
          ⟨cA ++ cB, mA ++ mB, iA ++ iB, eA ++ eB, sA ++ (dt, v) :: sB, rA ++ rB⟩ =
        get_user_data_as_dataframe env L
          ⟨cA ++ cB, mA ++ mB, iA ++ iB, eA ++ eB, sA ++ sB, rA ++ rB⟩
        ∧ interpCalls L
            ⟨cA ++ cB, mA ++ mB, iA ++ iB, eA ++ eB, sA ++ (dt, v) :: sB, rA ++ rB⟩ =
          interpCalls L
            ⟨cA ++ cB, mA ++ mB, iA ++ iB, eA ++ eB, sA ++ sB, rA ++ rB⟩)
    ∧ (hasRow L dt "monthly_cashflow_savings_rate" = true →
      get_user_data_as_dataframe env L
          ⟨cA ++ cB, mA ++ mB, iA ++ iB, eA ++ eB, sA ++ sB, rA ++ (dt, v) :: rB⟩ =
        get_user_data_as_dataframe env L
          ⟨cA ++ cB, mA ++ mB, iA ++ iB, eA ++ eB, sA ++ sB, rA ++ rB⟩
        ∧ interpCalls L
            ⟨cA ++ cB, mA ++ mB, iA ++ iB, eA ++ eB, sA ++ sB, rA ++ (dt, v) :: rB⟩ =
          interpCalls L
            ⟨cA ++ cB, mA ++ mB, iA ++ iB, eA ++ eB, sA ++ sB, rA ++ rB⟩) := by
  refine ⟨fun h => ⟨?_, ?_⟩, fun h => ⟨?_, ?_⟩, fun h => ⟨?_, ?_⟩,
    fun h => ⟨?_, ?_⟩, fun h => ⟨?_, ?_⟩, fun h => ⟨?_, ?_⟩⟩ <;>
    first
      | (apply merge_eq_of_df_data_eq
         simp [df_data, cannabisRows, moodRows, financialRows, financial_metrics,
           List.flatMap_append, h])
      | simp [interpCalls, financial_metrics, List.flatMap_append, h]

/-! ### Interpreter claims -/

/-- A concrete environment in which every external parse fails. -/
def envA : Env := ⟨fun _ => none, fun _ => none, fun _ => none⟩

/-- A concrete environment with succeeding agent parses and failing `float`. -/
def envB : Env := ⟨fun _ => some 2, fun _ => some 4, fun _ => none⟩

/-- C4 counterexample: a response parsing to 7 — out of the range [1, 5] — is
clamped to 5, not mapped to 3 as the claim states. -/
theorem C4_counterexample :
    MoodMetricAgent.process_metric (some 7) = 5 ∧ (5 : ℚ) ≠ 3 := by
  constructor
  · norm_num [MoodMetricAgent.process_metric]
  · norm_num

/-- C4 (amended): the mood interpreter always returns a value in
{1, 2, 3, 4, 5}; a response that fails to parse yields exactly 3; an
out-of-range parsed response is clamped to the nearest bound via
`max(1, min(5, r))` rather than yielding 3. -/
theorem C4_amended_mood_clamp (r : Option Int) (n : Int) :
    MoodMetricAgent.process_metric r ∈ ({1, 2, 3, 4, 5} : Set ℚ)
    ∧ MoodMetricAgent.process_metric none = 3
    ∧ MoodMetricAgent.process_metric (some n) = ((max 1 (min 5 n) : ℤ) : ℚ) := by
  refine ⟨?_, by norm_num [MoodMetricAgent.process_metric], rfl⟩
  cases r with
  | none => simp [MoodMetricAgent.process_metric]
  | some k =>
    have h1 : (1 : ℤ) ≤ max 1 (min 5 k) := le_max_left 1 (min 5 k)
    have h5 : max 1 (min 5 k) ≤ 5 := max_le (by norm_num) (min_le_left 5 k)
    have : max 1 (min 5 k) = 1 ∨ max 1 (min 5 k) = 2 ∨ max 1 (min 5 k) = 3 ∨
        max 1 (min 5 k) = 4 ∨ max 1 (min 5 k) = 5 := by omega
    rcases this with h | h | h | h | h <;>
      simp [MoodMetricAgent.process_metric, h]

/-- C5 counterexample: a response parsing to -1 is returned as -1, which is
negative — non-negativity of the cannabis interpreter's output is not
enforced by the code. -/
theorem C5_counterexample :
    CannabisMetricAgent.process_metric (some (-1)) = -1 ∧
      ¬(0 ≤ CannabisMetricAgent.process_metric (some (-1))) := by
  norm_num [CannabisMetricAgent.process_metric]

/-- C5 (amended): a response that fails to parse as a float yields exactly
0.0; a parsed response is returned unchanged, so the output is non-negative
whenever the parsed response is (but negative parsed responses pass through). -/
theorem C5_amended_cannabis_parse (q : ℚ) :
    CannabisMetricAgent.process_metric none = 0
    ∧ CannabisMetricAgent.process_metric (some q) = q
    ∧ (0 ≤ q → 0 ≤ CannabisMetricAgent.process_metric (some q)) :=
  ⟨rfl, rfl, fun h => h⟩

theorem C5_amended_cannabis_parse_witness :
    CannabisMetricAgent.process_metric none = 0
    ∧ CannabisMetricAgent.process_metric (some 2) = 2
    ∧ 0 ≤ CannabisMetricAgent.process_metric (some 2) :=
  ⟨(C5_amended_cannabis_parse 2).1,
   (C5_amended_cannabis_parse 2).2.1,
   (C5_amended_cannabis_parse 2).2.2 (by norm_num)⟩

/-- C9: for the four financial metric kinds, `calculate` attempts a direct
numeric parse of the raw value and consults no external agent — its result is
unchanged under any change of the agent collaborators — returning the parsed
number on success and exactly 0.0 on failure, without raising. -/
theorem C9_financial_direct_parse (env env2 : Env) (name : String) (v : Val)
    (hname : name ∈ ["monthly_cashflow_income", "monthly_cashflow_expenses",
      "monthly_cashflow_savings", "monthly_cashflow_savings_rate"])
    (hpf : env.pyFloat = env2.pyFloat) :
    calculate env name v = calculate env2 name v
    ∧ calculate env name v =
        (match pyFloatVal env v with | some q => q | none => 0) := by
  have hv : pyFloatVal env2 v = pyFloatVal env v := by
    cases v <;> simp [pyFloatVal, hpf]
  simp only [List.mem_cons, List.not_mem_nil, or_false] at hname
  rcases hname with h | h | h | h <;>
    (subst h; constructor <;> simp [calculate, hv])

theorem C9_financial_direct_parse_witness :
    calculate envA "monthly_cashflow_income" (Val.str "oops") =
        calculate envB "monthly_cashflow_income" (Val.str "oops")
    ∧ calculate envA "monthly_cashflow_income" (Val.str "oops") =
        (match pyFloatVal envA (Val.str "oops") with | some q => q | none => 0) :=
  C9_financial_direct_parse envA envB "monthly_cashflow_income" (Val.str "oops")
    (by simp) rfl

/-- A concrete log holding a row for every tag at timestamp 10. -/
def logW : List Row :=
  [⟨10, "cannabis_use_since_last_update_raw", Val.str "x"⟩,
   ⟨10, "mood_raw", Val.str "x"⟩,
   ⟨10, "monthly_cashflow_income", Val.num 1⟩,
   ⟨10, "monthly_cashflow_expenses", Val.num 1⟩,
   ⟨10, "monthly_cashflow_savings", Val.num 1⟩,
   ⟨10, "monthly_cashflow_savings_rate", Val.num 1⟩]

theorem C10_existing_event_ignored_witness :
    (get_user_data_as_dataframe envA logW ⟨[(10, Val.str "y")], [], [], [], [], []⟩ =
        get_user_data_as_dataframe envA logW ⟨[], [], [], [], [], []⟩
      ∧ interpCalls logW ⟨[(10, Val.str "y")], [], [], [], [], []⟩ =
        interpCalls logW ⟨[], [], [], [], [], []⟩)
    ∧ (get_user_data_as_dataframe envA logW ⟨[], [(10, Val.str "y")], [], [], [], []⟩ =
        get_user_data_as_dataframe envA logW ⟨[], [], [], [], [], []⟩
      ∧ interpCalls logW ⟨[], [(10, Val.str "y")], [], [], [], []⟩ =
        interpCalls logW ⟨[], [], [], [], [], []⟩)
    ∧ (get_user_data_as_dataframe envA logW ⟨[], [], [(10, Val.str "y")], [], [], []⟩ =
        get_user_data_as_dataframe envA logW ⟨[], [], [], [], [], []⟩
      ∧ interpCalls logW ⟨[], [], [(10, Val.str "y")], [], [], []⟩ =
        interpCalls logW ⟨[], [], [], [], [], []⟩)
    ∧ (get_user_data_as_dataframe envA logW ⟨[], [], [], [(10, Val.str "y")], [], []⟩ =
        get_user_data_as_dataframe envA logW ⟨[], [], [], [], [], []⟩
      ∧ interpCalls logW ⟨[], [], [], [(10, Val.str "y")], [], []⟩ =
        interpCalls logW ⟨[], [], [], [], [], []⟩)
    ∧ (get_user_data_as_dataframe envA logW ⟨[], [], [], [], [(10, Val.str "y")], []⟩ =
        get_user_data_as_dataframe envA logW ⟨[], [], [], [], [], []⟩
      ∧ interpCalls logW ⟨[], [], [], [], [(10, Val.str "y")], []⟩ =
        interpCalls logW ⟨[], [], [], [], [], []⟩)
    ∧ (get_user_data_as_dataframe envA logW ⟨[], [], [], [], [], [(10, Val.str "y")]⟩ =
        get_user_data_as_dataframe envA logW ⟨[], [], [], [], [], []⟩
      ∧ interpCalls logW ⟨[], [], [], [], [], [(10, Val.str "y")]⟩ =
        interpCalls logW ⟨[], [], [], [], [], []⟩) :=
  ⟨(C10_existing_event_ignored envA logW 10 (Val.str "y")
      [] [] [] [] [] [] [] [] [] [] [] []).1 (by decide),
   (C10_existing_event_ignored envA logW 10 (Val.str "y")
      [] [] [] [] [] [] [] [] [] [] [] []).2.1 (by decide),
   (C10_existing_event_ignored envA logW 10 (Val.str "y")
      [] [] [] [] [] [] [] [] [] [] [] []).2.2.1 (by decide),
   (C10_existing_event_ignored envA logW 10 (Val.str "y")
      [] [] [] [] [] [] [] [] [] [] [] []).2.2.2.1 (by decide),
   (C10_existing_event_ignored envA logW 10 (Val.str "y")
      [] [] [] [] [] [] [] [] [] [] [] []).2.2.2.2.1 (by decide),
   (C10_existing_event_ignored envA logW 10 (Val.str "y")
      [] [] [] [] [] [] [] [] [] [] [] []).2.2.2.2.2 (by decide)⟩

/-! ### Pair counts and duplication -/

/-- The `(timestamp, tag)` identity of a row. -/
def rowPair (r : Row) : Timestamp × String := (r.dt, r.event_type)

theorem countPair_append (l l' : List Row) (t : Timestamp) (g : String) :
    countPair (l ++ l') t g = countPair l t g + countPair l' t g := by
  simp [countPair, List.filter_append]

theorem countPair_perm {l l' : List Row} (h : l.Perm l') (t : Timestamp)
    (g : String) : countPair l t g = countPair l' t g :=
  (h.filter _).length_eq

theorem countPair_eq_count (df : List Row) (t : Timestamp) (g : String) :
    countPair df t g = (df.map rowPair).count (t, g) := by
  induction df with
  | nil => rfl
  | cons r l ih =>
    simp only [countPair, List.filter, List.map, List.count_cons] at *
    by_cases h : r.dt = t ∧ r.event_type = g
    · have hb : (r.dt == t && r.event_type == g) = true := by
        simp [h.1, h.2]
      have hp : (rowPair r == (t, g)) = true := by
        simp [rowPair, h.1, h.2]
      simp [hb, hp, ih]
    · have hb : (r.dt == t && r.event_type == g) = false := by
        rcases not_and_or.1 h with h' | h' <;> simp [h']
      have hp : (rowPair r == (t, g)) = false := by
        have : rowPair r ≠ (t, g) := by
          simp only [rowPair, Ne, Prod.mk.injEq]
          exact h
        simpa using this
      simp [hb, hp, ih]

theorem countPair_zero_iff (df : List Row) (t : Timestamp) (g : String) :
    countPair df t g = 0 ↔ hasRow df t g = false := by
  rw [countPair, List.length_eq_zero, List.filter_eq_nil_iff]
  constructor
  · intro h
    cases hh : hasRow df t g
    · rfl
    · rcases (hasRow_iff df t g).1 hh with ⟨r, hr, h1, h2⟩
      exact absurd (by simp [h1, h2]) (h r hr)
  · intro h r hr
    intro hb
    simp only [Bool.and_eq_true, beq_iff_eq] at hb
    exact absurd ((hasRow_iff df t g).2 ⟨r, hr, hb.1, hb.2⟩) (by simp [h])

theorem countPair_pos_iff (df : List Row) (t : Timestamp) (g : String) :
    0 < countPair df t g ↔ ∃ r ∈ df, r.dt = t ∧ r.event_type = g := by
  rw [countPair, List.length_pos]
  constructor
  · intro h
    rcases List.exists_mem_of_ne_nil _ h with ⟨r, hr⟩
    rw [List.mem_filter] at hr
    exact ⟨r, hr.1, by simpa using hr.2⟩
  · rintro ⟨r, hr, h1, h2⟩
    intro hnil
    have : r ∈ List.filter (fun r => r.dt == t && r.event_type == g) df :=
      List.mem_filter.2 ⟨hr, by simp [h1, h2]⟩
    rw [hnil] at this
    cases this

/-- Every row appended by the merge failed its membership test, so — provided
every derived row of the existing log is accompanied by its raw row at the
same timestamp — its own `(timestamp, tag)` pair is absent from the log. -/
theorem data_pair_not_in_existing (env : Env) (L : List Row) (E : Fetched)
    (hcg : ∀ t, hasRow L t "cannabis_use_since_last_update_grams" = true →
      hasRow L t "cannabis_use_since_last_update_raw" = true)
    (hms : ∀ t, hasRow L t "mood_score" = true → hasRow L t "mood_raw" = true) :
    ∀ r ∈ df_data env L E, hasRow L r.dt r.event_type = false := by
  intro r hr
  rw [mem_df_data] at hr
  rcases hr with ⟨p, _, h, (rfl | rfl)⟩ | ⟨p, _, h, (rfl | rfl)⟩ |
    ⟨m, _, p, _, h, rfl⟩
  · exact h
  · cases hG : hasRow L p.1 "cannabis_use_since_last_update_grams"
    · rfl
    · exact absurd (hcg p.1 hG) (by simp [h])
  · exact h
  · cases hG : hasRow L p.1 "mood_score"
    · rfl
    · exact absurd (hms p.1 hG) (by simp [h])
  · exact h

theorem cannabisRows_pairs (env : Env) (L : List Row) :
    ∀ entries : List (Timestamp × Val), (entries.map Prod.fst).Nodup →
      ((cannabisRows env L entries).map rowPair).Nodup ∧
      ∀ x ∈ (cannabisRows env L entries).map rowPair,
        x.1 ∈ entries.map Prod.fst ∧
        (x.2 = "cannabis_use_since_last_update_raw" ∨
         x.2 = "cannabis_use_since_last_update_grams") := by
  intro entries
  induction entries with
  | nil => intro _; simp [cannabisRows]
  | cons p rest ih =>
    intro h
    simp only [List.map_cons, List.nodup_cons] at h
    obtain ⟨hp, hrest⟩ := h
    obtain ⟨ihn, ihm⟩ := ih hrest
    have hsplit : cannabisRows env L (p :: rest) =
        (if hasRow L p.1 "cannabis_use_since_last_update_raw" then []
         else
          [⟨p.1, "cannabis_use_since_last_update_raw", p.2⟩,
           ⟨p.1, "cannabis_use_since_last_update_grams",
            Val.num (calculate env "cannabis_use" p.2)⟩]) ++
          cannabisRows env L rest := by
      simp [cannabisRows]
    by_cases hb : hasRow L p.1 "cannabis_use_since_last_update_raw" = true
    · rw [hsplit, if_pos hb, List.nil_append]
      refine ⟨ihn, fun x hx => ⟨List.mem_cons.2 (Or.inr (ihm x hx).1), (ihm x hx).2⟩⟩
    · rw [hsplit, if_neg hb]
      constructor
      · simp only [List.map_append, List.map_cons, List.map_nil, rowPair,
          List.cons_append, List.nil_append, List.nodup_cons]
        refine ⟨?_, ?_, ihn⟩
        · intro hmem
          rcases List.mem_cons.1 hmem with hx | hx
          · simp at hx
          · exact hp ((ihm _ hx).1)
        · intro hmem
          exact hp ((ihm _ hmem).1)
      · intro x hx
        simp only [List.map_append, List.map_cons, List.map_nil, rowPair,
          List.cons_append, List.nil_append, List.mem_cons] at hx
        rcases hx with rfl | rfl | hx
        · exact ⟨List.mem_cons.2 (Or.inl rfl), Or.inl rfl⟩
        · exact ⟨List.mem_cons.2 (Or.inl rfl), Or.inr rfl⟩
        · exact ⟨List.mem_cons.2 (Or.inr (ihm x hx).1), (ihm x hx).2⟩

theorem moodRows_pairs (env : Env) (L : List Row) :
    ∀ entries : List (Timestamp × Val), (entries.map Prod.fst).Nodup →
      ((moodRows env L entries).map rowPair).Nodup ∧
      ∀ x ∈ (moodRows env L entries).map rowPair,
        x.1 ∈ entries.map Prod.fst ∧
        (x.2 = "mood_raw" ∨ x.2 = "mood_score") := by
  intro entries
  induction entries with
  | nil => intro _; simp [moodRows]
  | cons p rest ih =>
    intro h
    simp only [List.map_cons, List.nodup_cons] at h
    obtain ⟨hp, hrest⟩ := h
    obtain ⟨ihn, ihm⟩ := ih hrest
    have hsplit : moodRows env L (p :: rest) =
        (if hasRow L p.1 "mood_raw" then []
         else
          [⟨p.1, "mood_raw", p.2⟩,
           ⟨p.1, "mood_score", Val.num (calculate env "mood" p.2)⟩]) ++
          moodRows env L rest := by
      simp [moodRows]
    by_cases hb : hasRow L p.1 "mood_raw" = true
    · rw [hsplit, if_pos hb, List.nil_append]
      refine ⟨ihn, fun x hx => ⟨List.mem_cons.2 (Or.inr (ihm x hx).1), (ihm x hx).2⟩⟩
    · rw [hsplit, if_neg hb]
      constructor
      · simp only [List.map_append, List.map_cons, List.map_nil, rowPair,
          List.cons_append, List.nil_append, List.nodup_cons]
        refine ⟨?_, ?_, ihn⟩
        · intro hmem
          rcases List.mem_cons.1 hmem with hx | hx
          · simp at hx
          · exact hp ((ihm _ hx).1)
        · intro hmem
          exact hp ((ihm _ hmem).1)
      · intro x hx
        simp only [List.map_append, List.map_cons, List.map_nil, rowPair,
          List.cons_append, List.nil_append, List.mem_cons] at hx
        rcases hx with rfl | rfl | hx
        · exact ⟨List.mem_cons.2 (Or.inl rfl), Or.inl rfl⟩
        · exact ⟨List.mem_cons.2 (Or.inl rfl), Or.inr rfl⟩
        · exact ⟨List.mem_cons.2 (Or.inr (ihm x hx).1), (ihm x hx).2⟩

/-- One financial metric's loop body, as a standalone function. -/
def finRowsFor (env : Env) (L : List Row) (name : String)
    (entries : List (Timestamp × Val)) : List Row :=
  entries.flatMap (fun p =>
    if hasRow L p.1 name then []
    else [Row.mk p.1 name (Val.num (calculate env name p.2))])

theorem finRows_pairs (env : Env) (L : List Row) (name : String) :
    ∀ entries : List (Timestamp × Val), (entries.map Prod.fst).Nodup →
      ((finRowsFor env L name entries).map rowPair).Nodup ∧
      ∀ x ∈ (finRowsFor env L name entries).map rowPair,
        x.1 ∈ entries.map Prod.fst ∧ x.2 = name := by
  intro entries
  induction entries with
  | nil => intro _; simp [finRowsFor]
  | cons p rest ih =>
    intro h
    simp only [List.map_cons, List.nodup_cons] at h
    obtain ⟨hp, hrest⟩ := h
    obtain ⟨ihn, ihm⟩ := ih hrest
    unfold finRowsFor
    rw [List.flatMap_cons]
    by_cases hb : hasRow L p.1 name = true
    · rw [if_pos hb, List.nil_append]
      refine ⟨ihn, fun x hx => ⟨List.mem_cons.2 (Or.inr (ihm x hx).1), (ihm x hx).2⟩⟩
    · rw [if_neg hb]
      constructor
      · simp only [List.map_append, List.map_cons, List.map_nil, rowPair,
          List.cons_append, List.nil_append, List.nodup_cons]
        refine ⟨?_, ihn⟩
        intro hmem
        exact hp ((ihm _ hmem).1)
      · intro x hx
        simp only [List.map_append, List.map_cons, List.map_nil, rowPair,
          List.cons_append, List.nil_append, List.mem_cons] at hx
        rcases hx with rfl | hx
        · exact ⟨List.mem_cons.2 (Or.inl rfl), rfl⟩
        · exact ⟨List.mem_cons.2 (Or.inr (ihm x hx).1), (ihm x hx).2⟩

theorem countPair_cons (r : Row) (l : List Row) (t : Timestamp) (g : String) :
    countPair (r :: l) t g =
      (if r.dt = t ∧ r.event_type = g then 1 else 0) + countPair l t g := by
  simp only [countPair, List.filter]
  by_cases h : r.dt = t ∧ r.event_type = g
  · have hb : (r.dt == t && r.event_type == g) = true := by simp [h.1, h.2]
    simp [hb, h, Nat.add_comm]
  · have hb : (r.dt == t && r.event_type == g) = false := by
      rcases not_and_or.1 h with h' | h' <;> simp [h']
    simp [hb, h]

theorem countPair_le_one_of_pairs_nodup {P : List Row}
    (h : (P.map rowPair).Nodup) (t : Timestamp) (g : String) :
    countPair P t g ≤ 1 := by
  induction P with
  | nil => simp [countPair]
  | cons r l ih =>
    simp only [List.map_cons, List.nodup_cons] at h
    obtain ⟨hr, hl⟩ := h
    rw [countPair_cons]
    by_cases hm : r.dt = t ∧ r.event_type = g
    · have hzero : countPair l t g = 0 := by
        by_contra hne
        rcases (countPair_pos_iff l t g).1 (Nat.pos_of_ne_zero hne) with
          ⟨x, hx, h1, h2⟩
        have : rowPair x = rowPair r := by
          simp [rowPair, h1, h2, hm.1, hm.2]
        exact hr (this ▸ List.mem_map_of_mem rowPair hx)
      simp [hm, hzero]
    · simpa [hm] using ih hl

theorem countPair_zero_of_tags {P : List Row} {t : Timestamp} {g : String}
    (h : ∀ x ∈ P.map rowPair, x.2 ≠ g) : countPair P t g = 0 := by
  by_contra hne
  rcases (countPair_pos_iff P t g).1 (Nat.pos_of_ne_zero hne) with ⟨r, hr, _, h2⟩
  exact h (rowPair r) (List.mem_map_of_mem _ hr) h2

/-- `financialRows` decomposed into the four per-metric loops. -/
theorem financialRows_decomp (env : Env) (L : List Row) (E : Fetched) :
    financialRows env L E =
      finRowsFor env L "monthly_cashflow_income" E.monthly_cashflow_income ++
        (finRowsFor env L "monthly_cashflow_expenses" E.monthly_cashflow_expenses ++
          (finRowsFor env L "monthly_cashflow_savings" E.monthly_cashflow_savings ++
            finRowsFor env L "monthly_cashflow_savings_rate"
              E.monthly_cashflow_savings_rate)) := by
  simp [financialRows, financial_metrics, finRowsFor]

/-- C3 (amended): merging never duplicates a `(timestamp, tag)` pair, given an
existing log in which each pair occurs at most once AND in which every derived
row (grams / mood score) is accompanied by its raw row at the same timestamp;
the per-kind fetched timestamp keys are distinct (they are dict keys). -/
theorem C3_amended_no_duplication (env : Env) (L : List Row) (E : Fetched)
    (honce : ∀ t g, countPair L t g ≤ 1)
    (hcg : ∀ t, hasRow L t "cannabis_use_since_last_update_grams" = true →
      hasRow L t "cannabis_use_since_last_update_raw" = true)
    (hms : ∀ t, hasRow L t "mood_score" = true → hasRow L t "mood_raw" = true)
    (hc : (E.cannabis_use.map Prod.fst).Nodup)
    (hm : (E.mood.map Prod.fst).Nodup)
    (hi : (E.monthly_cashflow_income.map Prod.fst).Nodup)
    (he : (E.monthly_cashflow_expenses.map Prod.fst).Nodup)
    (hs : (E.monthly_cashflow_savings.map Prod.fst).Nodup)
    (hr : (E.monthly_cashflow_savings_rate.map Prod.fst).Nodup)
    (t : Timestamp) (g : String) :
    countPair (get_user_data_as_dataframe env L E) t g ≤ 1 := by
  have htot : countPair (get_user_data_as_dataframe env L E) t g =
      countPair L t g + countPair (df_data env L E) t g := by
    unfold get_user_data_as_dataframe
    by_cases hd : (df_data env L E).isEmpty = true
    · rw [if_pos hd, List.isEmpty_iff.1 hd]
      simp [countPair]
    · rw [if_neg hd]
      have hperm : (sortByDt (L ++ sortByDt (df_data env L E))).Perm
          (L ++ df_data env L E) :=
        (List.perm_insertionSort _ _).trans
          ((List.perm_insertionSort _ _).append_left L)
      rw [countPair_perm hperm, countPair_append]
  have hdata : countPair (df_data env L E) t g =
      countPair (cannabisRows env L E.cannabis_use) t g +
        (countPair (moodRows env L E.mood) t g +
          (countPair (finRowsFor env L "monthly_cashflow_income"
              E.monthly_cashflow_income) t g +
            (countPair (finRowsFor env L "monthly_cashflow_expenses"
                E.monthly_cashflow_expenses) t g +
              (countPair (finRowsFor env L "monthly_cashflow_savings"
                  E.monthly_cashflow_savings) t g +
                countPair (finRowsFor env L "monthly_cashflow_savings_rate"
                  E.monthly_cashflow_savings_rate) t g)))) := by
    rw [df_data, financialRows_decomp, countPair_append, countPair_append,
      countPair_append, countPair_append, countPair_append]
    omega
  have bC := countPair_le_one_of_pairs_nodup
    (cannabisRows_pairs env L E.cannabis_use hc).1 t g
  have bM := countPair_le_one_of_pairs_nodup
    (moodRows_pairs env L E.mood hm).1 t g
  have bFI := countPair_le_one_of_pairs_nodup
    (finRows_pairs env L "monthly_cashflow_income" E.monthly_cashflow_income hi).1 t g
  have bFE := countPair_le_one_of_pairs_nodup
    (finRows_pairs env L "monthly_cashflow_expenses" E.monthly_cashflow_expenses he).1 t g
  have bFS := countPair_le_one_of_pairs_nodup
    (finRows_pairs env L "monthly_cashflow_savings" E.monthly_cashflow_savings hs).1 t g
  have bFR := countPair_le_one_of_pairs_nodup
    (finRows_pairs env L "monthly_cashflow_savings_rate" E.monthly_cashflow_savings_rate hr).1 t g
  have zM : ∀ g' : String, g' ≠ "mood_raw" → g' ≠ "mood_score" →
      countPair (moodRows env L E.mood) t g' = 0 := by
    intro g' h1 h2
    apply countPair_zero_of_tags
    intro x hx
    rcases ((moodRows_pairs env L E.mood hm).2 x hx).2 with h | h <;> rw [h]
    · exact fun hq => h1 hq.symm
    · exact fun hq => h2 hq.symm
  have zC : ∀ g' : String, g' ≠ "cannabis_use_since_last_update_raw" →
      g' ≠ "cannabis_use_since_last_update_grams" →
      countPair (cannabisRows env L E.cannabis_use) t g' = 0 := by
    intro g' h1 h2
    apply countPair_zero_of_tags
    intro x hx
    rcases ((cannabisRows_pairs env L E.cannabis_use hc).2 x hx).2 with h | h <;>
      rw [h]
    · exact fun hq => h1 hq.symm
    · exact fun hq => h2 hq.symm
  have zF : ∀ (name : String) (entries : List (Timestamp × Val)),
      (entries.map Prod.fst).Nodup → ∀ g' : String, g' ≠ name →
      countPair (finRowsFor env L name entries) t g' = 0 := by
    intro name entries hn g' h1
    apply countPair_zero_of_tags
    intro x hx
    rw [((finRows_pairs env L name entries hn).2 x hx).2]
    exact fun hq => h1 hq.symm
  have posL : ∀ r ∈ df_data env L E, r.dt = t → r.event_type = g →
      countPair L t g = 0 := by
    intro r hrd h1 h2
    have hfalse := data_pair_not_in_existing env L E hcg hms r hrd
    rw [h1, h2] at hfalse
    exact (countPair_zero_iff L t g).2 hfalse
  have posC : 0 < countPair (cannabisRows env L E.cannabis_use) t g →
      (g = "cannabis_use_since_last_update_raw" ∨
        g = "cannabis_use_since_last_update_grams") ∧ countPair L t g = 0 := by
    intro hpos
    rcases (countPair_pos_iff _ t g).1 hpos with ⟨r, hrm, h1, h2⟩
    have hrd : r ∈ df_data env L E := by
      unfold df_data
      exact List.mem_append.2 (Or.inl (List.mem_append.2 (Or.inl hrm)))
    have htags :=
      ((cannabisRows_pairs env L E.cannabis_use hc).2 (rowPair r)
        (List.mem_map_of_mem _ hrm)).2
    refine ⟨?_, posL r hrd h1 h2⟩
    rcases htags with h | h
    · exact Or.inl (h2.symm.trans h)
    · exact Or.inr (h2.symm.trans h)
  have posM : 0 < countPair (moodRows env L E.mood) t g →
      (g = "mood_raw" ∨ g = "mood_score") ∧ countPair L t g = 0 := by
    intro hpos
    rcases (countPair_pos_iff _ t g).1 hpos with ⟨r, hrm, h1, h2⟩
    have hrd : r ∈ df_data env L E := by
      unfold df_data
      exact List.mem_append.2 (Or.inl (List.mem_append.2 (Or.inr hrm)))
    have htags :=
      ((moodRows_pairs env L E.mood hm).2 (rowPair r)
        (List.mem_map_of_mem _ hrm)).2
    refine ⟨?_, posL r hrd h1 h2⟩
    rcases htags with h | h
    · exact Or.inl (h2.symm.trans h)
    · exact Or.inr (h2.symm.trans h)
  have posF : ∀ (name : String) (entries : List (Timestamp × Val)),
      (entries.map Prod.fst).Nodup →
      finRowsFor env L name entries ∈
        [finRowsFor env L "monthly_cashflow_income" E.monthly_cashflow_income,
         finRowsFor env L "monthly_cashflow_expenses" E.monthly_cashflow_expenses,
         finRowsFor env L "monthly_cashflow_savings" E.monthly_cashflow_savings,
         finRowsFor env L "monthly_cashflow_savings_rate"
           E.monthly_cashflow_savings_rate] →
      0 < countPair (finRowsFor env L name entries) t g →
      g = name ∧ countPair L t g = 0 := by
    intro name entries hn hmem hpos
    rcases (countPair_pos_iff _ t g).1 hpos with ⟨r, hrm, h1, h2⟩
    have hrd : r ∈ df_data env L E := by
      unfold df_data
      refine List.mem_append.2 (Or.inr ?_)
      rw [financialRows_decomp]
      simp only [List.mem_cons, List.not_mem_nil, or_false] at hmem
      rcases hmem with h | h | h | h <;> rw [h] at hrm <;>
        simp only [List.mem_append] <;> tauto
    have htag :=
      ((finRows_pairs env L name entries hn).2 (rowPair r)
        (List.mem_map_of_mem _ hrm)).2
    exact ⟨h2.symm.trans htag, posL r hrd h1 h2⟩
  rw [htot, hdata]
  by_cases h1 : countPair (cannabisRows env L E.cannabis_use) t g = 0
  · rw [h1]
    by_cases h2 : countPair (moodRows env L E.mood) t g = 0
    · rw [h2]
      by_cases h3 : countPair (finRowsFor env L "monthly_cashflow_income"
          E.monthly_cashflow_income) t g = 0
      · rw [h3]
        by_cases h4 : countPair (finRowsFor env L "monthly_cashflow_expenses"
            E.monthly_cashflow_expenses) t g = 0
        · rw [h4]
          by_cases h5 : countPair (finRowsFor env L "monthly_cashflow_savings"
              E.monthly_cashflow_savings) t g = 0
          · rw [h5]
            by_cases h6 : countPair (finRowsFor env L
                "monthly_cashflow_savings_rate"
                E.monthly_cashflow_savings_rate) t g = 0
            · rw [h6]
              have := honce t g
              omega
            · obtain ⟨rfl, hL0⟩ := posF "monthly_cashflow_savings_rate"
                E.monthly_cashflow_savings_rate hr (by simp)
                (Nat.pos_of_ne_zero h6)
              rw [hL0]
              omega
          · obtain ⟨rfl, hL0⟩ := posF "monthly_cashflow_savings"
              E.monthly_cashflow_savings hs (by simp) (Nat.pos_of_ne_zero h5)
            rw [hL0, zF "monthly_cashflow_savings_rate"
              E.monthly_cashflow_savings_rate hr _ (by decide)]
            omega
        · obtain ⟨rfl, hL0⟩ := posF "monthly_cashflow_expenses"
            E.monthly_cashflow_expenses he (by simp) (Nat.pos_of_ne_zero h4)
          rw [hL0, zF "monthly_cashflow_savings" E.monthly_cashflow_savings hs _
            (by decide), zF "monthly_cashflow_savings_rate"
            E.monthly_cashflow_savings_rate hr _ (by decide)]
          omega
      · obtain ⟨rfl, hL0⟩ := posF "monthly_cashflow_income"
          E.monthly_cashflow_income hi (by simp) (Nat.pos_of_ne_zero h3)
        rw [hL0, zF "monthly_cashflow_expenses" E.monthly_cashflow_expenses he _
          (by decide), zF "monthly_cashflow_savings" E.monthly_cashflow_savings
          hs _ (by decide), zF "monthly_cashflow_savings_rate"
          E.monthly_cashflow_savings_rate hr _ (by decide)]
        omega
    · obtain ⟨htag, hL0⟩ := posM (Nat.pos_of_ne_zero h2)
      rcases htag with rfl | rfl <;>
        rw [hL0, zF "monthly_cashflow_income" E.monthly_cashflow_income hi _
          (by decide), zF "monthly_cashflow_expenses" E.monthly_cashflow_expenses
          he _ (by decide), zF "monthly_cashflow_savings"
          E.monthly_cashflow_savings hs _ (by decide),
          zF "monthly_cashflow_savings_rate" E.monthly_cashflow_savings_rate hr _
          (by decide)] <;>
        omega
  · obtain ⟨htag, hL0⟩ := posC (Nat.pos_of_ne_zero h1)
    rcases htag with rfl | rfl <;>
      rw [hL0, zM _ (by decide) (by decide), zF "monthly_cashflow_income"
        E.monthly_cashflow_income hi _ (by decide), zF "monthly_cashflow_expenses"
        E.monthly_cashflow_expenses he _ (by decide), zF "monthly_cashflow_savings"
        E.monthly_cashflow_savings hs _ (by decide),
        zF "monthly_cashflow_savings_rate" E.monthly_cashflow_savings_rate hr _
        (by decide)] <;>
      omega

/-- C3 counterexample: an existing log holding a derived grams row with no
matching raw row satisfies "each `(timestamp, tag)` pair occurs at most once"
(it has a single row), yet merging a fetched cannabis event at the same
timestamp appends a second grams row for the same pair. -/
theorem C3_counterexample :
    (List.length [Row.mk 50 "cannabis_use_since_last_update_grams" (Val.num 1)]
        = 1)
    ∧ countPair
        (get_user_data_as_dataframe envA
          [Row.mk 50 "cannabis_use_since_last_update_grams" (Val.num 1)]
          ⟨[(50, Val.str "x")], [], [], [], [], []⟩)
        50 "cannabis_use_since_last_update_grams" = 2 := by
  constructor
  · rfl
  · decide

theorem C3_amended_no_duplication_witness :
    countPair
      (get_user_data_as_dataframe envA []
        ⟨[(0, Val.str "a")], [], [], [], [], []⟩) 0
      "cannabis_use_since_last_update_grams" ≤ 1 :=
  C3_amended_no_duplication envA [] ⟨[(0, Val.str "a")], [], [], [], [], []⟩
    (fun t g => by simp [countPair])
    (fun t h => by simp [hasRow] at h)
    (fun t h => by simp [hasRow] at h)
    (by decide) (by decide) (by decide) (by decide) (by decide) (by decide)
    0 "cannabis_use_since_last_update_grams"

/-- C6 counterexample: with an existing row at timestamp 100 and a new fetched
mood event at timestamp 50, the merge re-sorts the combined frame by `dt`, so
the output is NOT the existing log followed by the sorted new rows — the new
rows are interleaved before the later existing row. -/
theorem C6_counterexample :
    get_user_data_as_dataframe envA [Row.mk 100 "mood_raw" (Val.str "x")]
        ⟨[], [(50, Val.str "ok")], [], [], [], []⟩ ≠
      [Row.mk 100 "mood_raw" (Val.str "x")] ++
        sortByDt (df_data envA [Row.mk 100 "mood_raw" (Val.str "x")]
          ⟨[], [(50, Val.str "ok")], [], [], [], []⟩) := by
  decide

/-- C6 (amended): when at least one event is new, the merged log is sorted by
timestamp and is a permutation of the existing log together with the newly
produced rows — the final `sort_values` interleaves new rows among existing
ones rather than concatenating them after the existing log, and (the sort kind
being unstable) no relative-order guarantee among rows with equal timestamps
survives. -/
theorem C6_amended_merge_order (env : Env) (L : List Row) (E : Fetched)
    (hdata : df_data env L E ≠ []) :
    (get_user_data_as_dataframe env L E).Perm (L ++ df_data env L E)
    ∧ List.Sorted dtLE (get_user_data_as_dataframe env L E) := by
  have hne : ¬((df_data env L E).isEmpty = true) := by
    simpa [List.isEmpty_iff] using hdata
  have hrw : get_user_data_as_dataframe env L E =
      sortByDt (L ++ sortByDt (df_data env L E)) := by
    unfold get_user_data_as_dataframe
    rw [if_neg hne]
  constructor
  · rw [hrw]
    exact (List.perm_insertionSort _ _).trans
      ((List.perm_insertionSort _ _).append_left L)
  · rw [hrw]
    exact List.sorted_insertionSort dtLE _

theorem C6_amended_merge_order_witness :
    (get_user_data_as_dataframe envA [Row.mk 10 "mood_raw" (Val.str "x")]
        ⟨[(5, Val.str "a")], [], [], [], [], []⟩).Perm
        ([Row.mk 10 "mood_raw" (Val.str "x")] ++
          df_data envA [Row.mk 10 "mood_raw" (Val.str "x")]
            ⟨[(5, Val.str "a")], [], [], [], [], []⟩)
    ∧ List.Sorted dtLE
        (get_user_data_as_dataframe envA [Row.mk 10 "mood_raw" (Val.str "x")]
          ⟨[(5, Val.str "a")], [], [], [], [], []⟩) :=
  C6_amended_merge_order envA [Row.mk 10 "mood_raw" (Val.str "x")]
    ⟨[(5, Val.str "a")], [], [], [], [], []⟩ (by decide)

/-! ### The aggregator (`aggregate_data` of `streamlit_app.py`)

pandas operations are embedded as follows: `groupby('period')` with an
aggregation produces, for each distinct period key (pandas sorts group keys
ascending), the aggregate of the group's non-null values (`sum` / `mean` /
`last` all skip nulls; a `sum` over an all-null group is 0.0, a `mean` or
`last` of an all-null group is null).  The chain of `pd.merge(..., how='outer',
on='dt')` followed by `sort_values('dt')` produces one row per key in the
sorted union of the six key sets, each column holding the series value at that
key or null when the series has no such key.  `fillna` and `ffill` are mapped
over that table.  `pd.to_numeric(..., errors='coerce')` on a cell is `some q`
for a numeric cell and the external parse for a string cell.

The granularity branch (lines 29–36) assigns the bucket key: the Minutely,
Hourly and Daily branches floor the timestamp; the Weekly branch executes
`df['dt'].to_period('W')` — `Series.to_period` without the `.dt` accessor —
which raises `TypeError` on the integer-indexed frame before any bucketing
(and a `Timestamp` has no `start_time` either), so selecting Weekly never
produces a table.  `periodFloor` models the branch's outcome (`none` for the
raising Weekly branch) and `aggregateWith` the bucketing pipeline that runs
on a computed bucket-key function. -/

/-- The four values of the dashboard's granularity selector. -/
inductive Granularity where
  | minutely
  | hourly
  | daily
  | weekly
deriving DecidableEq, Repr

/-- `dt.floor('T')`. -/
def minuteFloor (ts : Timestamp) : Timestamp := ts - ts.emod 60

/-- `dt.floor('H')`. -/
def hourFloor (ts : Timestamp) : Timestamp := ts - ts.emod 3600

/-- `dt.floor('D')`. -/
def dayFloor (ts : Timestamp) : Timestamp := ts - ts.emod 86400

/-- The outcome of the granularity branch: the bucket-key (timestamp
truncation) function for the Minutely, Hourly and Daily branches; `none` for
the Weekly branch, which raises `TypeError: unsupported Type RangeIndex`
(`Series.to_period` called without the `.dt` accessor on the integer-indexed
frame) before computing any bucket key. -/
def periodFloor : Granularity → Option (Timestamp → Timestamp)
  | Granularity.minutely => some minuteFloor
  | Granularity.hourly => some hourFloor
  | Granularity.daily => some dayFloor
  | Granularity.weekly => none

/-- `pd.to_numeric(cell, errors='coerce')`: numbers pass through, strings are
parsed by the collaborator `toNum` (`none` is NaN). -/
def toNumericVal (toNum : String → Option ℚ) : Val → Option ℚ
  | Val.num q => some q
  | Val.str s => toNum s

/-- The rows of one metric's frame falling in the bucket `p`. -/
def rowsAt (fl : Timestamp → Timestamp) (df : List Row) (tag : String)
    (p : Timestamp) : List Row :=
  df.filter (fun r => r.event_type == tag && fl r.dt == p)

/-- The non-null numeric values of a list of rows, in row order. -/
def quantValues (toNum : String → Option ℚ) (rows : List Row) : List ℚ :=
  rows.filterMap (fun r => toNumericVal toNum r.value)

/-- Ascending deduplicated keys. -/
def dedupSortInt (l : List Timestamp) : List Timestamp :=
  (l.dedup).insertionSort (fun a b => a ≤ b)

/-- The group keys of one metric's `groupby('period')` (ascending). -/
def periodsOf (fl : Timestamp → Timestamp) (df : List Row) (tag : String) :
    List Timestamp :=
  dedupSortInt ((df.filter (fun r => r.event_type == tag)).map
    (fun r => fl r.dt))

/-- The per-group aggregation chosen by `aggregate_data` for a metric:
`sum` for cannabis grams, `mean` for mood score, `last` otherwise. -/
def aggHow (tag : String) (vals : List ℚ) : Option ℚ :=
  if tag == "cannabis_use_since_last_update_grams" then some vals.sum
  else if tag == "mood_score" then
    (if vals.isEmpty then none else some (vals.sum / vals.length))
  else vals.getLast?

/-- One metric's aggregated series, as a function of the bucket key:
the group aggregate at keys of the metric, null elsewhere. -/
def seriesValue (toNum : String → Option ℚ) (fl : Timestamp → Timestamp) (df : List Row)
    (tag : String) (p : Timestamp) : Option ℚ :=
  if p ∈ periodsOf fl df tag then
    aggHow tag (quantValues toNum (rowsAt fl df tag p))
  else none

/-- One row of the final aggregated table (`final_df`); `none` is NaN. -/
structure AggRow where
  dt : Timestamp
  cannabis_grams : Option ℚ
  mood_score : Option ℚ
  monthly_cashflow_income : Option ℚ
  monthly_cashflow_expenses : Option ℚ
  monthly_cashflow_savings : Option ℚ
  monthly_cashflow_savings_rate : Option ℚ
deriving DecidableEq, Repr

/-- The keys of the outer-merged table: the sorted union of the six series'
keys (the merged frame is re-sorted by `dt` on line 78). -/
def outerKeys (fl : Timestamp → Timestamp) (df : List Row) : List Timestamp :=
  dedupSortInt
    (periodsOf fl df "cannabis_use_since_last_update_grams" ++
      periodsOf fl df "mood_score" ++
      periodsOf fl df "monthly_cashflow_income" ++
      periodsOf fl df "monthly_cashflow_expenses" ++
      periodsOf fl df "monthly_cashflow_savings" ++
      periodsOf fl df "monthly_cashflow_savings_rate")

/-- A row of the outer-merged table before the fill steps. -/
def preRow (toNum : String → Option ℚ) (fl : Timestamp → Timestamp) (df : List Row)
    (p : Timestamp) : AggRow :=
  ⟨p,
   seriesValue toNum fl df "cannabis_use_since_last_update_grams" p,
   seriesValue toNum fl df "mood_score" p,
   seriesValue toNum fl df "monthly_cashflow_income" p,
   seriesValue toNum fl df "monthly_cashflow_expenses" p,
   seriesValue toNum fl df "monthly_cashflow_savings" p,
   seriesValue toNum fl df "monthly_cashflow_savings_rate" p⟩

/-- `fillna` on a cell: keep a present value, else substitute. -/
def orElseQ (a b : Option ℚ) : Option ℚ :=
  match a with
  | some v => some v
  | none => b

/-- `final_df['mood_score'].mean()`: the mean of the non-null entries of the
merged table's mood column (NaN — `none` — when the column is all-null, in
which case `fillna` leaves the column unchanged). -/
def moodFill (toNum : String → Option ℚ) (fl : Timestamp → Timestamp) (df : List Row) :
    Option ℚ :=
  let xs := ((outerKeys fl df).map
    (fun p => seriesValue toNum fl df "mood_score" p)).filterMap id
  if xs.isEmpty then none else some (xs.sum / xs.length)

/-- Lines 81–82: `fillna(0)` on the cannabis column and `fillna(mean)` on the
mood column. -/
def fillRow (mf : Option ℚ) (r : AggRow) : AggRow :=
  { r with
    cannabis_grams := some (r.cannabis_grams.getD 0),
    mood_score := orElseQ r.mood_score mf }

/-- Line 87: `final_df[financial_columns].ffill()` — a forward scan carrying
the last non-null value of each of the four financial columns. -/
def ffill4 (a1 a2 a3 a4 : Option ℚ) : List AggRow → List AggRow
  | [] => []
  | r :: rs =>
    { r with
      monthly_cashflow_income := orElseQ r.monthly_cashflow_income a1,
      monthly_cashflow_expenses := orElseQ r.monthly_cashflow_expenses a2,
      monthly_cashflow_savings := orElseQ r.monthly_cashflow_savings a3,
      monthly_cashflow_savings_rate :=
        orElseQ r.monthly_cashflow_savings_rate a4 } ::
      ffill4 (orElseQ r.monthly_cashflow_income a1)
        (orElseQ r.monthly_cashflow_expenses a2)
        (orElseQ r.monthly_cashflow_savings a3)
        (orElseQ r.monthly_cashflow_savings_rate a4) rs

/-- The bucketing pipeline of `aggregate_data`, for a computed bucket-key
function: per-metric groupby aggregation, outer merge on the bucket key, sort
by key, fill cannabis with 0, fill mood with the column mean, forward-fill
the financial columns. -/
def aggregateWith (toNum : String → Option ℚ) (fl : Timestamp → Timestamp)
    (df : List Row) : List AggRow :=
  ffill4 none none none none
    (((outerKeys fl df).map (preRow toNum fl df)).map
      (fillRow (moodFill toNum fl df)))

/-- `aggregate_data(df, granularity)`: run the bucketing pipeline on the
granularity's bucket-key function; `none` models the `TypeError` raised by
the Weekly branch before any bucketing. -/
def aggregate_data (toNum : String → Option ℚ) (gran : Granularity)
    (df : List Row) : Option (List AggRow) :=
  (periodFloor gran).map (fun fl => aggregateWith toNum fl df)

theorem orElseQ_none_right (a : Option ℚ) : orElseQ a none = a := by
  cases a <;> rfl

theorem orElseQ_assoc (a b c : Option ℚ) :
    orElseQ (orElseQ a b) c = orElseQ a (orElseQ b c) := by
  cases a <;> rfl

theorem mem_of_getLast?_eq {l : List Timestamp} {b : Timestamp}
    (h : l.getLast? = some b) : b ∈ l := by
  induction l with
  | nil => cases h
  | cons a t ih =>
    cases t with
    | nil =>
      simp only [List.getLast?_singleton, Option.some.injEq] at h
      simp [h]
    | cons c t2 =>
      rw [List.getLast?_cons_cons] at h
      exact List.mem_cons.2 (Or.inr (ih h))

theorem getLast?_cons_orElseQ (a : ℚ) (l : List ℚ) :
    (a :: l).getLast? = orElseQ l.getLast? (some a) := by
  cases l with
  | nil => rfl
  | cons b t =>
    rw [List.getLast?_cons_cons]
    cases h : (b :: t).getLast? with
    | none => exact absurd (List.getLast?_eq_none_iff.1 h) (by simp)
    | some v => rfl

theorem filterMap_getLast?_cons (F : Timestamp → Option ℚ) (k : Timestamp)
    (ks : List Timestamp) :
    (List.filterMap F (k :: ks)).getLast? =
      orElseQ (List.filterMap F ks).getLast? (F k) := by
  rw [List.filterMap_cons]
  cases hk : F k with
  | none => rw [orElseQ_none_right]
  | some v => exact getLast?_cons_orElseQ v _

theorem mem_dedupSortInt (l : List Timestamp) (x : Timestamp) :
    x ∈ dedupSortInt l ↔ x ∈ l := by
  rw [dedupSortInt, List.mem_insertionSort, List.mem_dedup]

theorem dedupSortInt_sorted (l : List Timestamp) :
    List.Pairwise (fun a b : Timestamp => a ≤ b) (dedupSortInt l) :=
  List.sorted_insertionSort _ _

theorem dedupSortInt_nodup (l : List Timestamp) : (dedupSortInt l).Nodup :=
  ((List.perm_insertionSort _ _).nodup_iff).2 l.nodup_dedup

theorem dedupSortInt_strict (l : List Timestamp) :
    List.Pairwise (fun a b : Timestamp => a < b) (dedupSortInt l) :=
  (dedupSortInt_sorted l).imp₂ (fun _ _ h1 h2 => lt_of_le_of_ne h1 h2)
    (dedupSortInt_nodup l)

theorem outerKeys_strict (fl : Timestamp → Timestamp) (df : List Row) :
    List.Pairwise (fun a b : Timestamp => a < b) (outerKeys fl df) :=
  dedupSortInt_strict _

theorem periodsOf_strict (fl : Timestamp → Timestamp) (df : List Row) (tag : String) :
    List.Pairwise (fun a b : Timestamp => a < b) (periodsOf fl df tag) :=
  dedupSortInt_strict _

theorem mem_periodsOf (fl : Timestamp → Timestamp) (df : List Row) (tag : String)
    (p : Timestamp) :
    p ∈ periodsOf fl df tag ↔ rowsAt fl df tag p ≠ [] := by
  rw [periodsOf, mem_dedupSortInt]
  constructor
  · intro h
    rcases List.mem_map.1 h with ⟨r, hr, hfloor⟩
    rcases List.mem_filter.1 hr with ⟨hrdf, htag⟩
    intro hnil
    have : r ∈ rowsAt fl df tag p := by
      rw [rowsAt, List.mem_filter]
      exact ⟨hrdf, by simp only [Bool.and_eq_true]; exact ⟨htag, by simp [hfloor]⟩⟩
    rw [hnil] at this
    cases this
  · intro h
    rcases List.exists_mem_of_ne_nil _ h with ⟨r, hr⟩
    rw [rowsAt, List.mem_filter] at hr
    obtain ⟨hrdf, hpred⟩ := hr
    simp only [Bool.and_eq_true, beq_iff_eq] at hpred
    exact List.mem_map.2 ⟨r, List.mem_filter.2 ⟨hrdf, by simp [hpred.1]⟩, hpred.2⟩

theorem mem_outerKeys_of (fl : Timestamp → Timestamp) (df : List Row) (p : Timestamp)
    (h : p ∈ periodsOf fl df "cannabis_use_since_last_update_grams" ∨
      p ∈ periodsOf fl df "mood_score" ∨
      p ∈ periodsOf fl df "monthly_cashflow_income" ∨
      p ∈ periodsOf fl df "monthly_cashflow_expenses" ∨
      p ∈ periodsOf fl df "monthly_cashflow_savings" ∨
      p ∈ periodsOf fl df "monthly_cashflow_savings_rate") :
    p ∈ outerKeys fl df := by
  rw [outerKeys, mem_dedupSortInt]
  simp only [List.mem_append]
  tauto

/-- The value carried into a bucket by the forward scan: the last non-null
series value at a key `≤ p`. -/
def lastObs (ks : List Timestamp) (get : Timestamp → Option ℚ)
    (p : Timestamp) : Option ℚ :=
  ((ks.filter (fun k => decide (k ≤ p))).filterMap get).getLast?

theorem ffill4_map (F : Timestamp → AggRow) :
    ∀ ks : List Timestamp, List.Pairwise (fun a b : Timestamp => a < b) ks →
    ∀ a1 a2 a3 a4 : Option ℚ,
      ffill4 a1 a2 a3 a4 (ks.map F) = ks.map (fun p =>
        { F p with
          monthly_cashflow_income :=
            orElseQ (lastObs ks (fun k => (F k).monthly_cashflow_income) p) a1,
          monthly_cashflow_expenses :=
            orElseQ (lastObs ks (fun k => (F k).monthly_cashflow_expenses) p) a2,
          monthly_cashflow_savings :=
            orElseQ (lastObs ks (fun k => (F k).monthly_cashflow_savings) p) a3,
          monthly_cashflow_savings_rate :=
            orElseQ (lastObs ks (fun k => (F k).monthly_cashflow_savings_rate) p)
              a4 }) := by
  intro ks
  induction ks with
  | nil => intro _ a1 a2 a3 a4; rfl
  | cons k t ih =>
    intro hp a1 a2 a3 a4
    obtain ⟨hk, ht⟩ := List.pairwise_cons.1 hp
    have hhead : ∀ get : Timestamp → Option ℚ, lastObs (k :: t) get k = get k := by
      intro get
      unfold lastObs
      rw [List.filter_cons_of_pos (by simp)]
      rw [List.filter_eq_nil_iff.2
        (fun x hx => by simpa using not_le.2 (hk x hx))]
      rw [List.filterMap_cons]
      cases hg : get k with
      | none => rfl
      | some v => rfl
    have htail : ∀ (get : Timestamp → Option ℚ) (a : Option ℚ) (p : Timestamp),
        p ∈ t → orElseQ (lastObs (k :: t) get p) a =
          orElseQ (lastObs t get p) (orElseQ (get k) a) := by
      intro get a p hpt
      unfold lastObs
      rw [List.filter_cons_of_pos (by simpa using le_of_lt (hk p hpt)),
        filterMap_getLast?_cons, orElseQ_assoc]
    rw [List.map_cons, ffill4, ih ht, List.map_cons]
    congr 1
    · rw [hhead, hhead, hhead, hhead]
    · apply List.map_congr_left
      intro p hpt
      rw [htail _ a1 p hpt, htail _ a2 p hpt, htail _ a3 p hpt,
        htail _ a4 p hpt]

/-- Closed form of the aggregated table: one row per key of the sorted union,
with the fills applied (cannabis 0-filled, mood mean-filled, financial columns
forward-filled via `lastObs`). -/
theorem aggregateWith_eq (toNum : String → Option ℚ)
    (fl : Timestamp → Timestamp) (df : List Row) :
    aggregateWith toNum fl df = (outerKeys fl df).map (fun p =>
      ⟨p,
       some ((seriesValue toNum fl df "cannabis_use_since_last_update_grams"
         p).getD 0),
       orElseQ (seriesValue toNum fl df "mood_score" p) (moodFill toNum fl df),
       lastObs (outerKeys fl df)
         (seriesValue toNum fl df "monthly_cashflow_income") p,
       lastObs (outerKeys fl df)
         (seriesValue toNum fl df "monthly_cashflow_expenses") p,
       lastObs (outerKeys fl df)
         (seriesValue toNum fl df "monthly_cashflow_savings") p,
       lastObs (outerKeys fl df)
         (seriesValue toNum fl df "monthly_cashflow_savings_rate") p⟩) := by
  unfold aggregateWith
  rw [List.map_map,
    ffill4_map (fillRow (moodFill toNum fl df) ∘ preRow toNum fl df)
      (outerKeys fl df) (outerKeys_strict fl df) none none none none]
  apply List.map_congr_left
  intro p _
  simp only [Function.comp, fillRow, preRow, orElseQ_none_right]

theorem rowsAt_mem_df {fl : Timestamp → Timestamp} {df : List Row} {tag : String}
    {p : Timestamp} {r : Row} (h : r ∈ rowsAt fl df tag p) : r ∈ df :=
  (List.mem_filter.1 h).1

theorem quantValues_ne_nil {toNum : String → Option ℚ} {rows : List Row}
    (hnum : ∀ r ∈ rows, ∃ q, r.value = Val.num q) (h : rows ≠ []) :
    quantValues toNum rows ≠ [] := by
  cases rows with
  | nil => exact absurd rfl h
  | cons r t =>
    rcases hnum r (List.mem_cons_self r t) with ⟨q, hq⟩
    rw [quantValues, List.filterMap_cons, hq]
    simp [toNumericVal]

theorem max?_eq_getLast?_of_sorted :
    ∀ l : List Timestamp, List.Pairwise (fun a b : Timestamp => a ≤ b) l →
      l.max? = l.getLast? := by
  intro l
  induction l with
  | nil => intro _; rfl
  | cons a t ih =>
    intro h
    obtain ⟨ha, ht⟩ := List.pairwise_cons.1 h
    rw [List.max?_cons, ih ht]
    cases hgl : t.getLast? with
    | none =>
      rw [List.getLast?_eq_none_iff.1 hgl]
      rfl
    | some b =>
      have hab : a ≤ b := ha b (mem_of_getLast?_eq hgl)
      have hcons : (a :: t).getLast? = some b := by
        cases t with
        | nil => cases hgl
        | cons c t2 => rw [List.getLast?_cons_cons]; exact hgl
      rw [hcons]
      simp [Option.elim, max_eq_right hab]

theorem strict_nodup {l : List Timestamp}
    (h : List.Pairwise (fun a b : Timestamp => a < b) l) : l.Nodup :=
  h.imp (fun hab => ne_of_lt hab)

theorem strict_sorted {l : List Timestamp}
    (h : List.Pairwise (fun a b : Timestamp => a < b) l) :
    List.Pairwise (fun a b : Timestamp => a ≤ b) l :=
  h.imp (fun hab => le_of_lt hab)

theorem eq_of_strict_mem {l1 l2 : List Timestamp}
    (h1 : List.Pairwise (fun a b : Timestamp => a < b) l1)
    (h2 : List.Pairwise (fun a b : Timestamp => a < b) l2)
    (h : ∀ x, x ∈ l1 ↔ x ∈ l2) : l1 = l2 :=
  List.eq_of_perm_of_sorted
    ((List.perm_ext_iff_of_nodup (strict_nodup h1) (strict_nodup h2)).2 h)
    (strict_sorted h1) (strict_sorted h2)

theorem filterMap_restrict (F : Timestamp → Option ℚ) (d : List Timestamp) :
    ∀ l : List Timestamp, (∀ k ∈ l, k ∉ d → F k = none) →
      l.filterMap F = (l.filter (fun k => decide (k ∈ d))).filterMap F := by
  intro l
  induction l with
  | nil => intro _; rfl
  | cons k t ih =>
    intro h
    rw [List.filterMap_cons, List.filter_cons]
    by_cases hk : k ∈ d
    · rw [if_pos (by simpa using hk), List.filterMap_cons,
        ih (fun x hx => h x (List.mem_cons.2 (Or.inr hx)))]
    · rw [h k (List.mem_cons_self k t) hk,
        if_neg (by simpa using hk), ih (fun x hx => h x (List.mem_cons.2 (Or.inr hx)))]

theorem filterMap_eq_map_of_some (F : Timestamp → Option ℚ)
    (m : Timestamp → ℚ) :
    ∀ l : List Timestamp, (∀ k ∈ l, F k = some (m k)) →
      l.filterMap F = l.map m := by
  intro l
  induction l with
  | nil => intro _; rfl
  | cons k t ih =>
    intro h
    rw [List.filterMap_cons, h k (List.mem_cons_self k t), List.map_cons,
      ih (fun x hx => h x (List.mem_cons.2 (Or.inr hx)))]

theorem getLast?_filterMap_allsome (F : Timestamp → Option ℚ) :
    ∀ l : List Timestamp, (∀ k ∈ l, (F k).isSome = true) →
      (l.filterMap F).getLast? = l.getLast?.bind F := by
  intro l
  induction l with
  | nil => intro _; rfl
  | cons k t ih =>
    intro h
    rw [filterMap_getLast?_cons, ih (fun x hx => h x (List.mem_cons.2 (Or.inr hx)))]
    cases t with
    | nil =>
      simp only [List.getLast?_nil, Option.none_bind, List.getLast?_singleton]
      cases hk : F k with
      | none => exact absurd (hk ▸ h k (by simp)) (by simp)
      | some v => simp [hk, orElseQ]
    | cons c t2 =>
      rw [List.getLast?_cons_cons]
      cases hgl : (c :: t2).getLast? with
      | none => exact absurd (List.getLast?_eq_none_iff.1 hgl) (by simp)
      | some u =>
        cases hu : F u with
        | none =>
          have : u ∈ k :: c :: t2 :=
            List.mem_cons.2 (Or.inr (mem_of_getLast?_eq hgl))
          exact absurd (hu ▸ h u this) (by simp)
        | some w => simp [hu, orElseQ]

theorem lastObs_self {ks : List Timestamp}
    (hks : List.Pairwise (fun a b : Timestamp => a < b) ks)
    {get : Timestamp → Option ℚ} {p : Timestamp} {v : ℚ}
    (hp : p ∈ ks) (hv : get p = some v) : lastObs ks get p = some v := by
  induction ks with
  | nil => cases hp
  | cons k t ih =>
    obtain ⟨hk, ht⟩ := List.pairwise_cons.1 hks
    rcases List.mem_cons.1 hp with rfl | hpt
    · unfold lastObs
      rw [List.filter_cons_of_pos (by simp),
        List.filter_eq_nil_iff.2 (fun x hx => by simpa using not_le.2 (hk x hx)),
        List.filterMap_cons, hv]
      rfl
    · unfold lastObs
      rw [List.filter_cons_of_pos (by simpa using le_of_lt (hk p hpt)),
        filterMap_getLast?_cons]
      have := ih ht hpt
      unfold lastObs at this
      rw [this]
      rfl

theorem rowsAt_empty_of_not_mem {fl : Timestamp → Timestamp} {df : List Row} {tag : String}
    {p : Timestamp} (h : p ∉ periodsOf fl df tag) : rowsAt fl df tag p = [] := by
  by_contra hne
  exact h ((mem_periodsOf fl df tag p).2 hne)

/-- C7: the Weekly branch of `aggregate_data` raises before any bucketing —
its table is `none` — so only the minute/hour/day granularities produce
buckets; for those, each bucket's cannabis-grams value is the exact sum of
the grams values whose truncated timestamps fall in the bucket, the mood
value is their arithmetic mean, and each financial column equals the last
value observed within the bucket (stated for buckets in which the metric is
observed; absent metrics are the subject of the fill policy). -/
theorem C7_bucket_aggregation (toNum : String → Option ℚ) (gran : Granularity)
    (fl : Timestamp → Timestamp) (df : List Row) (b : AggRow)
    (hfl : periodFloor gran = some fl)
    (hnum : ∀ r ∈ df, ∃ q, r.value = Val.num q)
    (hb : b ∈ aggregateWith toNum fl df)
    (hm : rowsAt fl df "mood_score" b.dt ≠ [])
    (hf1 : rowsAt fl df "monthly_cashflow_income" b.dt ≠ [])
    (hf2 : rowsAt fl df "monthly_cashflow_expenses" b.dt ≠ [])
    (hf3 : rowsAt fl df "monthly_cashflow_savings" b.dt ≠ [])
    (hf4 : rowsAt fl df "monthly_cashflow_savings_rate" b.dt ≠ []) :
    aggregate_data toNum Granularity.weekly df = none
    ∧ aggregate_data toNum gran df = some (aggregateWith toNum fl df)
    ∧ b.cannabis_grams =
      some ((quantValues toNum
        (rowsAt fl df "cannabis_use_since_last_update_grams" b.dt)).sum)
    ∧ b.mood_score =
      some ((quantValues toNum (rowsAt fl df "mood_score" b.dt)).sum /
        (quantValues toNum (rowsAt fl df "mood_score" b.dt)).length)
    ∧ b.monthly_cashflow_income =
      (quantValues toNum (rowsAt fl df "monthly_cashflow_income" b.dt)).getLast?
    ∧ b.monthly_cashflow_expenses =
      (quantValues toNum (rowsAt fl df "monthly_cashflow_expenses" b.dt)).getLast?
    ∧ b.monthly_cashflow_savings =
      (quantValues toNum (rowsAt fl df "monthly_cashflow_savings" b.dt)).getLast?
    ∧ b.monthly_cashflow_savings_rate =
      (quantValues toNum
        (rowsAt fl df "monthly_cashflow_savings_rate" b.dt)).getLast? := by
  rw [aggregateWith_eq] at hb
  rcases List.mem_map.1 hb with ⟨p, hpks, rfl⟩
  simp only at hm hf1 hf2 hf3 hf4 ⊢
  have hval : ∀ tag : String, rowsAt fl df tag p ≠ [] →
      ∃ v, (quantValues toNum (rowsAt fl df tag p)).getLast? = some v := by
    intro tag h
    have hne : quantValues toNum (rowsAt fl df tag p) ≠ [] :=
      quantValues_ne_nil (fun r hr => hnum r (rowsAt_mem_df hr)) h
    cases hq : (quantValues toNum (rowsAt fl df tag p)).getLast? with
    | none => exact absurd (List.getLast?_eq_none_iff.1 hq) hne
    | some v => exact ⟨v, rfl⟩
  have hfin : ∀ tag : String,
      tag = "monthly_cashflow_income" ∨ tag = "monthly_cashflow_expenses" ∨
        tag = "monthly_cashflow_savings" ∨ tag = "monthly_cashflow_savings_rate" →
      rowsAt fl df tag p ≠ [] →
      lastObs (outerKeys fl df) (seriesValue toNum fl df tag) p =
        (quantValues toNum (rowsAt fl df tag p)).getLast? := by
    intro tag htag h
    obtain ⟨v, hv⟩ := hval tag h
    have hser : seriesValue toNum fl df tag p = some v := by
      unfold seriesValue
      rw [if_pos ((mem_periodsOf fl df tag p).2 h)]
      rcases htag with rfl | rfl | rfl | rfl <;> (unfold aggHow; simp [hv])
    have hpo : p ∈ outerKeys fl df := by
      apply mem_outerKeys_of
      rcases htag with rfl | rfl | rfl | rfl
      · exact Or.inr (Or.inr (Or.inl ((mem_periodsOf fl df _ p).2 h)))
      · exact Or.inr (Or.inr (Or.inr (Or.inl ((mem_periodsOf fl df _ p).2 h))))
      · exact Or.inr (Or.inr (Or.inr (Or.inr (Or.inl
          ((mem_periodsOf fl df _ p).2 h)))))
      · exact Or.inr (Or.inr (Or.inr (Or.inr (Or.inr
          ((mem_periodsOf fl df _ p).2 h)))))
    rw [lastObs_self (outerKeys_strict fl df) hpo hser, hv]
  refine ⟨rfl, ?_, ?_, ?_, ?_, ?_, ?_, ?_⟩
  · unfold aggregate_data
    rw [hfl]
    rfl
  · unfold seriesValue
    by_cases hp : p ∈ periodsOf fl df "cannabis_use_since_last_update_grams"
    · rw [if_pos hp]
      unfold aggHow
      simp
    · rw [if_neg hp, rowsAt_empty_of_not_mem hp]
      simp [quantValues]
  · unfold seriesValue
    rw [if_pos ((mem_periodsOf fl df "mood_score" p).2 hm)]
    have hne : quantValues toNum (rowsAt fl df "mood_score" p) ≠ [] :=
      quantValues_ne_nil (fun r hr => hnum r (rowsAt_mem_df hr)) hm
    unfold aggHow
    rw [if_neg (by decide), if_pos (by decide),
      if_neg (by rw [List.isEmpty_iff]; exact hne)]
    rfl
  · exact hfin _ (Or.inl rfl) hf1
  · exact hfin _ (Or.inr (Or.inl rfl)) hf2
  · exact hfin _ (Or.inr (Or.inr (Or.inl rfl))) hf3
  · exact hfin _ (Or.inr (Or.inr (Or.inr rfl))) hf4

/-- Modelled from the spec: the arithmetic mean of a metric's values within a
bucket. -/
def specBucketMean (toNum : String → Option ℚ) (fl : Timestamp → Timestamp)
    (df : List Row) (tag : String) (k : Timestamp) : ℚ :=
  (quantValues toNum (rowsAt fl df tag k)).sum /
    (quantValues toNum (rowsAt fl df tag k)).length

/-- Modelled from the spec: the single dataset-wide mood fallback — the mean
of all present (per-bucket mean) mood values across the whole result set;
absent when no bucket has a mood observation. -/
def specMoodFallback (toNum : String → Option ℚ) (fl : Timestamp → Timestamp)
    (df : List Row) : Option ℚ :=
  if (periodsOf fl df "mood_score").isEmpty then none
  else
    some (((periodsOf fl df "mood_score").map
        (specBucketMean toNum fl df "mood_score")).sum /
      (periodsOf fl df "mood_score").length)

/-- Modelled from the spec: the nearest earlier bucket's value for a
financial metric — the last value observed in the latest bucket at or before
`p` holding an observation; absent when there is no such bucket. -/
def specNearestEarlier (toNum : String → Option ℚ) (fl : Timestamp → Timestamp)
    (df : List Row) (tag : String) (p : Timestamp) : Option ℚ :=
  (((periodsOf fl df tag).filter (fun k => decide (k ≤ p))).max?).bind
    (fun k => (quantValues toNum (rowsAt fl df tag k)).getLast?)

theorem moodFill_eq_spec (toNum : String → Option ℚ) (fl : Timestamp → Timestamp)
    (df : List Row) (hnum : ∀ r ∈ df, ∃ q, r.value = Val.num q) :
    moodFill toNum fl df = specMoodFallback toNum fl df := by
  unfold moodFill specMoodFallback
  have hxs : ((outerKeys fl df).map
      (fun p => seriesValue toNum fl df "mood_score" p)).filterMap id =
        (periodsOf fl df "mood_score").map
          (specBucketMean toNum fl df "mood_score") := by
    rw [List.filterMap_map]
    have h1 : (outerKeys fl df).filterMap
        (id ∘ fun p => seriesValue toNum fl df "mood_score" p) =
        (outerKeys fl df).filterMap
          (fun p => seriesValue toNum fl df "mood_score" p) := rfl
    rw [h1,
      filterMap_restrict (fun p => seriesValue toNum fl df "mood_score" p)
        (periodsOf fl df "mood_score") (outerKeys fl df)
        (fun k _ hkm => by simp [seriesValue, hkm])]
    have h2 : (outerKeys fl df).filter
        (fun k => decide (k ∈ periodsOf fl df "mood_score")) =
        periodsOf fl df "mood_score" := by
      apply eq_of_strict_mem
      · exact (outerKeys_strict fl df).filter _
      · exact periodsOf_strict fl df _
      · intro x
        simp only [List.mem_filter, decide_eq_true_eq]
        exact ⟨fun h => h.2,
          fun h => ⟨mem_outerKeys_of fl df x (Or.inr (Or.inl h)), h⟩⟩
    rw [h2]
    apply filterMap_eq_map_of_some
    intro k hk
    have hrows : rowsAt fl df "mood_score" k ≠ [] :=
      (mem_periodsOf fl df "mood_score" k).1 hk
    have hne : quantValues toNum (rowsAt fl df "mood_score" k) ≠ [] :=
      quantValues_ne_nil (fun r hr => hnum r (rowsAt_mem_df hr)) hrows
    unfold seriesValue
    rw [if_pos hk]
    unfold aggHow
    rw [if_neg (by decide), if_pos (by decide),
      if_neg (by rw [List.isEmpty_iff]; exact hne)]
    rfl
  rw [hxs]
  by_cases hmp : (periodsOf fl df "mood_score") = []
  · rw [hmp]
    rfl
  · rw [if_neg (by rw [List.isEmpty_iff]; simpa using hmp),
      if_neg (by rw [List.isEmpty_iff]; exact hmp)]
    rw [List.length_map]

theorem lastObs_eq_spec (toNum : String → Option ℚ) (fl : Timestamp → Timestamp)
    (df : List Row) (tag : String) (p : Timestamp)
    (hnum : ∀ r ∈ df, ∃ q, r.value = Val.num q)
    (ht1 : (tag == "cannabis_use_since_last_update_grams") = false)
    (ht2 : (tag == "mood_score") = false)
    (hsub : ∀ x ∈ periodsOf fl df tag, x ∈ outerKeys fl df) :
    lastObs (outerKeys fl df) (seriesValue toNum fl df tag) p =
      specNearestEarlier toNum fl df tag p := by
  have hser : ∀ k ∈ periodsOf fl df tag,
      seriesValue toNum fl df tag k =
        (quantValues toNum (rowsAt fl df tag k)).getLast? := by
    intro k hk
    unfold seriesValue
    rw [if_pos hk]
    unfold aggHow
    rw [if_neg (by rw [ht1]; exact Bool.false_ne_true),
      if_neg (by rw [ht2]; exact Bool.false_ne_true)]
  have hsome : ∀ k ∈ periodsOf fl df tag,
      (seriesValue toNum fl df tag k).isSome = true := by
    intro k hk
    rw [hser k hk]
    have hrows : rowsAt fl df tag k ≠ [] := (mem_periodsOf fl df tag k).1 hk
    have hne : quantValues toNum (rowsAt fl df tag k) ≠ [] :=
      quantValues_ne_nil (fun r hr => hnum r (rowsAt_mem_df hr)) hrows
    cases hq : (quantValues toNum (rowsAt fl df tag k)).getLast? with
    | none => exact absurd (List.getLast?_eq_none_iff.1 hq) hne
    | some v => rfl
  unfold lastObs specNearestEarlier
  rw [filterMap_restrict (seriesValue toNum fl df tag) (periodsOf fl df tag) _
    (fun k _ hkm => by simp [seriesValue, hkm])]
  have hfil : ((outerKeys fl df).filter (fun k => decide (k ≤ p))).filter
      (fun k => decide (k ∈ periodsOf fl df tag)) =
      (periodsOf fl df tag).filter (fun k => decide (k ≤ p)) := by
    apply eq_of_strict_mem
    · exact ((outerKeys_strict fl df).filter _).filter _
    · exact (periodsOf_strict fl df tag).filter _
    · intro x
      simp only [List.mem_filter, decide_eq_true_eq]
      constructor
      · rintro ⟨⟨_, hxp⟩, hxt⟩
        exact ⟨hxt, hxp⟩
      · rintro ⟨hxt, hxp⟩
        exact ⟨⟨hsub x hxt, hxp⟩, hxt⟩
  rw [hfil]
  rw [getLast?_filterMap_allsome _ _
    (fun k hk => hsome k (List.mem_filter.1 hk).1)]
  rw [max?_eq_getLast?_of_sorted _ (strict_sorted ((periodsOf_strict fl df tag).filter _))]
  cases hgl : ((periodsOf fl df tag).filter (fun k => decide (k ≤ p))).getLast? with
  | none => rfl
  | some k =>
    have hk : k ∈ periodsOf fl df tag :=
      (List.mem_filter.1 (mem_of_getLast?_eq hgl)).1
    show seriesValue toNum fl df tag k =
      (quantValues toNum (rowsAt fl df tag k)).getLast?
    exact hser k hk

set_option maxHeartbeats 2000000 in
/-- C8: the fill policy of every aggregated table the code produces (a
granularity whose branch computes a bucket-key function; the Weekly branch
raises instead and yields no table) — a bucket with no cannabis observation
carries 0; a bucket with no mood observation carries the single dataset-wide
fallback (the mean of all present per-bucket mood values across the whole
result set, absent when there are none); each financial column equals the
nearest earlier bucket's value, and a first bucket with no prior financial
observation remains absent. -/
theorem C8_fill_policy (toNum : String → Option ℚ) (gran : Granularity)
    (fl : Timestamp → Timestamp) (df : List Row) (b : AggRow)
    (hfl : periodFloor gran = some fl)
    (hnum : ∀ r ∈ df, ∃ q, r.value = Val.num q)
    (hb : b ∈ aggregateWith toNum fl df) :
    aggregate_data toNum gran df = some (aggregateWith toNum fl df)
    ∧ b.cannabis_grams =
      (if rowsAt fl df "cannabis_use_since_last_update_grams" b.dt = []
        then some 0
        else some ((quantValues toNum
          (rowsAt fl df "cannabis_use_since_last_update_grams" b.dt)).sum))
    ∧ b.mood_score =
      (if rowsAt fl df "mood_score" b.dt = []
        then specMoodFallback toNum fl df
        else some (specBucketMean toNum fl df "mood_score" b.dt))
    ∧ b.monthly_cashflow_income =
      specNearestEarlier toNum fl df "monthly_cashflow_income" b.dt
    ∧ b.monthly_cashflow_expenses =
      specNearestEarlier toNum fl df "monthly_cashflow_expenses" b.dt
    ∧ b.monthly_cashflow_savings =
      specNearestEarlier toNum fl df "monthly_cashflow_savings" b.dt
    ∧ b.monthly_cashflow_savings_rate =
      specNearestEarlier toNum fl df "monthly_cashflow_savings_rate" b.dt := by
  rw [aggregateWith_eq] at hb
  rcases List.mem_map.1 hb with ⟨p, hpks, rfl⟩
  refine ⟨?_, ?_, ?_, ?_, ?_, ?_, ?_⟩
  · unfold aggregate_data
    rw [hfl]
    rfl
  · show some ((seriesValue toNum fl df
      "cannabis_use_since_last_update_grams" p).getD 0) = _
    by_cases hrows : rowsAt fl df "cannabis_use_since_last_update_grams" p = []
    · rw [if_pos hrows]
      have hp : p ∉ periodsOf fl df "cannabis_use_since_last_update_grams" :=
        fun h => (mem_periodsOf fl df _ p).1 h hrows
      unfold seriesValue
      rw [if_neg hp]
      rfl
    · rw [if_neg hrows]
      unfold seriesValue
      rw [if_pos ((mem_periodsOf fl df _ p).2 hrows)]
      unfold aggHow
      simp
  · show orElseQ (seriesValue toNum fl df "mood_score" p)
      (moodFill toNum fl df) = _
    by_cases hrows : rowsAt fl df "mood_score" p = []
    · rw [if_pos hrows]
      have hp : p ∉ periodsOf fl df "mood_score" :=
        fun h => (mem_periodsOf fl df _ p).1 h hrows
      unfold seriesValue
      rw [if_neg hp]
      exact moodFill_eq_spec toNum fl df hnum
    · rw [if_neg hrows]
      unfold seriesValue
      rw [if_pos ((mem_periodsOf fl df _ p).2 hrows)]
      have hne : quantValues toNum (rowsAt fl df "mood_score" p) ≠ [] :=
        quantValues_ne_nil (fun r hr => hnum r (rowsAt_mem_df hr)) hrows
      unfold aggHow
      rw [if_neg (by decide), if_pos (by decide),
        if_neg (by rw [List.isEmpty_iff]; exact hne)]
      rfl
  · show lastObs (outerKeys fl df)
      (seriesValue toNum fl df "monthly_cashflow_income") p = _
    exact lastObs_eq_spec toNum fl df "monthly_cashflow_income" p hnum
      (by decide) (by decide)
      (fun x hx => mem_outerKeys_of fl df x (Or.inr (Or.inr (Or.inl hx))))
  · show lastObs (outerKeys fl df)
      (seriesValue toNum fl df "monthly_cashflow_expenses") p = _
    exact lastObs_eq_spec toNum fl df "monthly_cashflow_expenses" p hnum
      (by decide) (by decide)
      (fun x hx => mem_outerKeys_of fl df x (Or.inr (Or.inr (Or.inr (Or.inl hx)))))
  · show lastObs (outerKeys fl df)
      (seriesValue toNum fl df "monthly_cashflow_savings") p = _
    exact lastObs_eq_spec toNum fl df "monthly_cashflow_savings" p hnum
      (by decide) (by decide)
      (fun x hx => mem_outerKeys_of fl df x
        (Or.inr (Or.inr (Or.inr (Or.inr (Or.inl hx))))))
  · show lastObs (outerKeys fl df)
      (seriesValue toNum fl df "monthly_cashflow_savings_rate") p = _
    exact lastObs_eq_spec toNum fl df "monthly_cashflow_savings_rate" p hnum
      (by decide) (by decide)
      (fun x hx => mem_outerKeys_of fl df x
        (Or.inr (Or.inr (Or.inr (Or.inr (Or.inr hx))))))

/-- A concrete quantitative log: six metrics in the day-0 bucket and one
cannabis row in the day-1 bucket. -/
def dfW : List Row :=
  [⟨0, "cannabis_use_since_last_update_grams", Val.num 1⟩,
   ⟨0, "mood_score", Val.num 4⟩,
   ⟨0, "monthly_cashflow_income", Val.num 10⟩,
   ⟨0, "monthly_cashflow_expenses", Val.num 5⟩,
   ⟨0, "monthly_cashflow_savings", Val.num 5⟩,
   ⟨0, "monthly_cashflow_savings_rate", Val.num 3⟩,
   ⟨86400, "cannabis_use_since_last_update_grams", Val.num 2⟩]

/-- A concrete string parser for which every string is NaN. -/
def toNumW : String → Option ℚ := fun _ => none

theorem dfW_num : ∀ r ∈ dfW, ∃ q, r.value = Val.num q := by
  intro r hr
  simp only [dfW, List.mem_cons, List.not_mem_nil, or_false] at hr
  rcases hr with rfl | rfl | rfl | rfl | rfl | rfl | rfl <;> exact ⟨_, rfl⟩

/-- The day-0 row of the aggregated table over `dfW`. -/
def bW0 : AggRow :=
  ⟨0,
   some ((seriesValue toNumW dayFloor dfW
     "cannabis_use_since_last_update_grams" 0).getD 0),
   orElseQ (seriesValue toNumW dayFloor dfW "mood_score" 0)
     (moodFill toNumW dayFloor dfW),
   lastObs (outerKeys dayFloor dfW)
     (seriesValue toNumW dayFloor dfW "monthly_cashflow_income") 0,
   lastObs (outerKeys dayFloor dfW)
     (seriesValue toNumW dayFloor dfW "monthly_cashflow_expenses") 0,
   lastObs (outerKeys dayFloor dfW)
     (seriesValue toNumW dayFloor dfW "monthly_cashflow_savings") 0,
   lastObs (outerKeys dayFloor dfW)
     (seriesValue toNumW dayFloor dfW "monthly_cashflow_savings_rate")
     0⟩

/-- The day-1 row of the aggregated table over `dfW`. -/
def bW1 : AggRow :=
  ⟨86400,
   some ((seriesValue toNumW dayFloor dfW
     "cannabis_use_since_last_update_grams" 86400).getD 0),
   orElseQ (seriesValue toNumW dayFloor dfW "mood_score" 86400)
     (moodFill toNumW dayFloor dfW),
   lastObs (outerKeys dayFloor dfW)
     (seriesValue toNumW dayFloor dfW "monthly_cashflow_income") 86400,
   lastObs (outerKeys dayFloor dfW)
     (seriesValue toNumW dayFloor dfW "monthly_cashflow_expenses")
     86400,
   lastObs (outerKeys dayFloor dfW)
     (seriesValue toNumW dayFloor dfW "monthly_cashflow_savings")
     86400,
   lastObs (outerKeys dayFloor dfW)
     (seriesValue toNumW dayFloor dfW "monthly_cashflow_savings_rate")
     86400⟩

theorem bW0_mem : bW0 ∈ aggregateWith toNumW dayFloor dfW := by
  rw [aggregateWith_eq]
  exact List.mem_map.2 ⟨0, by decide, rfl⟩

theorem bW1_mem : bW1 ∈ aggregateWith toNumW dayFloor dfW := by
  rw [aggregateWith_eq]
  exact List.mem_map.2 ⟨86400, by decide, rfl⟩

theorem C7_bucket_aggregation_witness :
    aggregate_data toNumW Granularity.weekly dfW = none
    ∧ aggregate_data toNumW Granularity.daily dfW =
        some (aggregateWith toNumW dayFloor dfW)
    ∧ bW0.cannabis_grams =
      some ((quantValues toNumW
        (rowsAt dayFloor dfW "cannabis_use_since_last_update_grams"
          bW0.dt)).sum)
    ∧ bW0.mood_score =
      some ((quantValues toNumW (rowsAt dayFloor dfW "mood_score"
          bW0.dt)).sum /
        (quantValues toNumW (rowsAt dayFloor dfW "mood_score"
          bW0.dt)).length)
    ∧ bW0.monthly_cashflow_income =
      (quantValues toNumW (rowsAt dayFloor dfW
        "monthly_cashflow_income" bW0.dt)).getLast?
    ∧ bW0.monthly_cashflow_expenses =
      (quantValues toNumW (rowsAt dayFloor dfW
        "monthly_cashflow_expenses" bW0.dt)).getLast?
    ∧ bW0.monthly_cashflow_savings =
      (quantValues toNumW (rowsAt dayFloor dfW
        "monthly_cashflow_savings" bW0.dt)).getLast?
    ∧ bW0.monthly_cashflow_savings_rate =
      (quantValues toNumW (rowsAt dayFloor dfW
        "monthly_cashflow_savings_rate" bW0.dt)).getLast? :=
  C7_bucket_aggregation toNumW Granularity.daily dayFloor dfW bW0 rfl dfW_num
    bW0_mem (by decide) (by decide) (by decide) (by decide) (by decide)

theorem C8_fill_policy_witness :
    aggregate_data toNumW Granularity.daily dfW =
        some (aggregateWith toNumW dayFloor dfW)
    ∧ bW1.cannabis_grams =
      (if rowsAt dayFloor dfW "cannabis_use_since_last_update_grams"
          bW1.dt = []
        then some 0
        else some ((quantValues toNumW
          (rowsAt dayFloor dfW "cannabis_use_since_last_update_grams"
            bW1.dt)).sum))
    ∧ bW1.mood_score =
      (if rowsAt dayFloor dfW "mood_score" bW1.dt = []
        then specMoodFallback toNumW dayFloor dfW
        else some (specBucketMean toNumW dayFloor dfW "mood_score"
          bW1.dt))
    ∧ bW1.monthly_cashflow_income =
      specNearestEarlier toNumW dayFloor dfW
        "monthly_cashflow_income" bW1.dt
    ∧ bW1.monthly_cashflow_expenses =
      specNearestEarlier toNumW dayFloor dfW
        "monthly_cashflow_expenses" bW1.dt
    ∧ bW1.monthly_cashflow_savings =
      specNearestEarlier toNumW dayFloor dfW
        "monthly_cashflow_savings" bW1.dt
    ∧ bW1.monthly_cashflow_savings_rate =
      specNearestEarlier toNumW dayFloor dfW
        "monthly_cashflow_savings_rate" bW1.dt :=
  C8_fill_policy toNumW Granularity.daily dayFloor dfW bW1 rfl dfW_num bW1_mem
